import Mathlib

/-- A spreadsheet cell as seen through openpyxl `values_only` iteration:
a string, a number, or `None` for an empty cell. -/
inductive Cell where
  | str (s : String)
  | num (q : ℚ)
  | empty
deriving DecidableEq

/-- A worksheet: a name and its rows (row 1 and 2 are headers, rows 3+ data). -/
structure Sheet where
  name : String
  rows : List (List Cell)
deriving DecidableEq

/-- A workbook is its list of sheets. -/
abbrev Workbook := List Sheet

/-- Python exceptions that the embedded code can raise. -/
inductive PyErr where
  | valueError (msg : String)
  | typeError
  | indexError
  | keyError
  | attributeError
  | runtimeError
deriving DecidableEq

/-- 3-dimensional numeric buffer (measurement kind, channel, time). -/
abbrev T3 := List (List (List ℚ))

deriving instance DecidableEq for Except

/-- Does the needle occur at the head of the haystack? -/
def subListAt : List Char → List Char → Bool
  | [], _ => true
  | _ :: _, [] => false
  | n :: ns, h :: hs => n == h && subListAt ns hs

/-- Substring occurrence test over character lists (Python `in`). -/
def hasSub (hay needle : List Char) : Bool :=
  match hay with
  | [] => needle.isEmpty
  | _ :: t => subListAt needle hay || hasSub t needle

/-- Python `s.lower()` restricted to the ASCII case used by the sheet names. -/
def lowerStr (s : String) : List Char := s.data.map Char.toLower

/-- Case-insensitive substring test: `sub in s.lower()`. -/
def containsLower (s : String) (sub : List Char) : Bool :=
  hasSub (lowerStr s) sub

/-- Try to match the regex `\d+,\d+` at the start of the character list,
returning the greedily matched text. -/
def matchIdAt (cs : List Char) : Option (List Char) :=
  let d1 := cs.takeWhile Char.isDigit
  let r1 := cs.dropWhile Char.isDigit
  if d1.isEmpty then none
  else
    match r1 with
    | ',' :: r2 =>
      let d2 := r2.takeWhile Char.isDigit
      if d2.isEmpty then none else some (d1 ++ ',' :: d2)
    | _ => none

/-- Leftmost search for `\d+,\d+` (Python `re.search`). -/
def searchIdAux : List Char → Option (List Char)
  | [] => none
  | c :: rest =>
    match matchIdAt (c :: rest) with
    | some m => some m
    | none => searchIdAux rest

/-- `re.search(r'(\d+,\d+)', name)`: the matched channel-id text, if any. -/
def searchId (nm : String) : Option String :=
  (searchIdAux nm.data).map List.asString

/-- Python string `<=` (lexicographic over code points), as a Bool. -/
def clLe : List Char → List Char → Bool
  | [], _ => true
  | _ :: _, [] => false
  | a :: as, b :: bs => if a < b then true else if b < a then false else clLe as bs

/-- Lexicographic order on strings as Python compares them. -/
def strLeB (a b : String) : Bool := clLe a.data b.data

/-- Insert into a sorted list, keeping existing elements first on ties. -/
def pyInsert (le : α → α → Bool) (a : α) : List α → List α
  | [] => [a]
  | b :: l => if le a b then a :: b :: l else b :: pyInsert le a l

/-- Insertion sort modelling Python `sorted` on duplicate-free input. -/
def pySort (le : α → α → Bool) : List α → List α
  | [] => []
  | a :: l => pyInsert le a (pySort le l)

/-- Classify a sheet name: measurement kind (`true` = HbO) and channel id,
or `none` when the sheet is ignored. -/
def classify (nm : String) : Option (Bool × String) :=
  if containsLower nm ['h', 'b', 'o'] then
    (searchId nm).map fun cid => (true, cid)
  else if containsLower nm ['h', 'b', 'r'] then
    (searchId nm).map fun cid => (false, cid)
  else
    none

/-- All channel ids that occur on some classified sheet (duplicates removed,
as `dict` keys). -/
def cidsOf (wb : Workbook) : List String :=
  (wb.filterMap fun sh => (classify sh.name).map Prod.snd).dedup

/-- The sheet name recorded for a (kind, channel-id) pair: the Python dict
assignment keeps the last write. -/
def hbName (wb : Workbook) (k : Bool) (cid : String) : Option String :=
  (wb.filterMap fun sh =>
    match classify sh.name with
    | some (k2, c) => if k2 = k ∧ c = cid then some sh.name else none
    | none => none).getLast?

/-- Channel ids having both an HbO and an HbR sheet, sorted as Python sorts
strings (`self.channels`). -/
def channelsOf (wb : Workbook) : List String :=
  pySort strLeB
    ((cidsOf wb).filter fun cid =>
      (hbName wb true cid).isSome && (hbName wb false cid).isSome)

/-- The paired (HbO sheet name, HbR sheet name) per valid channel
(`self.hb_sheets`). -/
def hbSheetsOf (wb : Workbook) : List (String × String) :=
  (channelsOf wb).map fun cid =>
    ((hbName wb true cid).getD "", (hbName wb false cid).getD "")

/-- `wb[name]`: the sheet of that name, or a KeyError. -/
def findSheet (wb : Workbook) (nm : String) : Except PyErr Sheet :=
  match wb.find? fun sh => sh.name == nm with
  | some sh => .ok sh
  | none => .error PyErr.keyError

/-- Can Python compare these two cells with `<`? -/
def cellCmpOk : Cell → Cell → Bool
  | Cell.str _, Cell.str _ => true
  | Cell.num _, Cell.num _ => true
  | _, _ => false

/-- Python `<=` on comparable cells. -/
def cellLeB : Cell → Cell → Bool
  | Cell.str a, Cell.str b => strLeB a b
  | Cell.num a, Cell.num b => decide (a ≤ b)
  | _, _ => false

/-- `sorted(list(set(l)))`: deduplicate, then sort; sorting a list that mixes
incomparable values raises a TypeError. -/
def sortedSet (l : List Cell) : Except PyErr (List Cell) :=
  let d := l.dedup
  if d.length ≤ 1 then .ok d
  else if d.all fun a => d.all fun b => cellCmpOk a b then .ok (pySort cellLeB d)
  else .error PyErr.typeError

/-- `ValueError` raised when no valid channel pair is found (the error the
specification calls `SchemaError`). -/
def SchemaError : PyErr := PyErr.valueError "No valid channels found"

/-- `ValueError` raised for an unrecognized split name (the error the
specification calls `ConfigError`). -/
def ConfigError : PyErr := PyErr.valueError "Invalid split type"

/-- Select the subject list for a split name (lines 83-90): first 16 sorted
subjects for train, the rest for test, everyone for all / validation. -/
def splitSelect (split : String) (all_subjects : List Cell) :
    Except PyErr (List Cell) :=
  if split = "train" then .ok (all_subjects.take 16)
  else if split = "test" then .ok (all_subjects.drop 16)
  else if split = "all" ∨ split = "validation" then .ok all_subjects
  else .error ConfigError

/-- Retained sample metadata (lines 91-94): header entries whose subject is
selected, keeping original order and original column indices. -/
def metaOf (sHeaders : List (Cell × Cell)) (sel : List Cell) :
    List (Cell × Cell × ℕ) :=
  sHeaders.enum.filterMap fun p =>
    if p.2.2 ∈ sel then some (p.2.1, p.2.2, p.1) else none

/-- The attributes stored on a constructed `fNIRSDataset` instance. -/
structure DatasetState where
  channels : List String
  num_channels : ℕ
  hb_sheets : List (String × String)
  drop_first : Bool
  sample_headers : List (Cell × Cell)
  samples_meta : List (Cell × Cell × ℕ)
  sampling_points : ℕ
  event_map : List (String × ℤ)
  target_length : ℕ
  offset_F : Option ℕ
  offset_H : ℕ
deriving DecidableEq

/-- Line 69: `expected_events = {"S", "F", "H"}`.  This local variable is
never reassigned. -/
def expected_events : List String := ["S", "F", "H"]

/-- Membership of a cell value in `expected_events` (line 71). -/
def cellIsExpected : Cell → Bool
  | Cell.str s => s ∈ expected_events
  | _ => false

/-- Python `==` on two string sets, here represented as lists. -/
def listSetEq (a b : List String) : Bool :=
  (a.all fun x => x ∈ b) && (b.all fun x => x ∈ a)

/-- Lines 67-77: read the two header rows, dropping the first column when its
event cell is not a recognized event code; returns the zipped
(event, subject) list and the drop flag. -/
def headerPart (rows : List (List Cell)) :
    Except PyErr (List (Cell × Cell) × Bool) :=
  match rows with
  | r0 :: r1 :: _ =>
    match r0 with
    | [] => .error PyErr.indexError
    | h0 :: _ =>
      if cellIsExpected h0 then .ok (r0.zip r1, false)
      else .ok (r0.tail.zip r1.tail, true)
  | _ => .error PyErr.indexError

/-- Lines 64-107 after the channel scan: header extraction, split filtering,
and regime fields.  The regime condition is embedded exactly as written at
line 99: `expected_events == {"S","F","H"}`, which compares the constant of
line 69 with itself. -/
def initFromRows (chans : List String) (hb : List (String × String))
    (split : String) (rows : List (List Cell)) : Except PyErr DatasetState :=
  match headerPart rows with
  | .error e => .error e
  | .ok (sHeaders, dropF) =>
    match sortedSet (sHeaders.map Prod.snd) with
    | .error e => .error e
    | .ok all_subjects =>
      match splitSelect split all_subjects with
      | .error e => .error e
      | .ok sel =>
        .ok { channels := chans
              num_channels := chans.length
              hb_sheets := hb
              drop_first := dropF
              sample_headers := sHeaders
              samples_meta := metaOf sHeaders sel
              sampling_points := rows.length - 2
              event_map :=
                if listSetEq expected_events ["S", "F", "H"] then
                  [("S", 0), ("F", 1), ("H", 2)]
                else [("F", 0), ("H", 1)]
              target_length :=
                if listSetEq expected_events ["S", "F", "H"] then 4549 else 4801
              offset_F :=
                if listSetEq expected_events ["S", "F", "H"] then some 252
                else none
              offset_H :=
                if listSetEq expected_events ["S", "F", "H"] then 2252
                else 2000 }

/-- `fNIRSDataset.__init__(excel_file, split)`: full construction. -/
def fNIRSDatasetInit (wb : Workbook) (split : String) :
    Except PyErr DatasetState :=
  if (channelsOf wb).isEmpty then .error SchemaError
  else
    match findSheet wb ((hbSheetsOf wb).headD ("", "")).1 with
    | .error e => .error e
    | .ok sheet => initFromRows (channelsOf wb) (hbSheetsOf wb) split sheet.rows

/-- The (event, subject) header pairs a workbook resolves to, mirroring the
header-extraction path of `__init__`. -/
def headersOf (wb : Workbook) : Except PyErr (List (Cell × Cell)) :=
  if (channelsOf wb).isEmpty then .error SchemaError
  else
    match findSheet wb ((hbSheetsOf wb).headD ("", "")).1 with
    | .error e => .error e
    | .ok sheet =>
      match headerPart sheet.rows with
      | .error e => .error e
      | .ok (sHeaders, _) => .ok sHeaders

/-- The observed header event codes of a workbook, in column order. -/
def headerEventsOf (wb : Workbook) : Except PyErr (List Cell) :=
  (headersOf wb).map fun hs => hs.map Prod.fst

/-- Monadic map over a list that stops at the first raised exception. -/
def mapExcept (f : α → Except PyErr β) : List α → Except PyErr (List β)
  | [] => .ok []
  | a :: t =>
    match f a with
    | .error e => .error e
    | .ok b =>
      match mapExcept f t with
      | .error e => .error e
      | .ok bs => .ok (b :: bs)

/-- One data cell read: missing cells (short rows) read as the integer 0,
`None` becomes 0, and every value is scaled by 1,000,000.  A string cell
makes the later `np.array(..., dtype=np.float32)` conversion fail. -/
def cellToNum : Cell → Except PyErr ℚ
  | Cell.num q => .ok (q * 1000000)
  | Cell.empty => .ok 0
  | Cell.str _ => .error (PyErr.valueError "could not convert string to float")

/-- Read one column of a sheet as a scaled series (rows 3 and onward). -/
def readSeries (sh : Sheet) (j : ℕ) : Except PyErr (List ℚ) :=
  mapExcept (fun row => cellToNum (row.getD j (Cell.num 0))) (sh.rows.drop 2)

/-- Lines 119-137: per valid channel, read the HbO series then the HbR
series, in the interleaved order of the source loop. -/
def readPairs (wb : Workbook) (pairs : List (String × String)) (j : ℕ) :
    Except PyErr (List (List ℚ) × List (List ℚ)) :=
  match pairs with
  | [] => .ok ([], [])
  | (nmO, nmR) :: rest =>
    match findSheet wb nmO with
    | .error e => .error e
    | .ok shO =>
      match readSeries shO j with
      | .error e => .error e
      | .ok vO =>
        match findSheet wb nmR with
        | .error e => .error e
        | .ok shR =>
          match readSeries shR j with
          | .error e => .error e
          | .ok vR =>
            match readPairs wb rest j with
            | .error e => .error e
            | .ok (os, rs) => .ok (vO :: os, vR :: rs)

/-- `np.stack` on a list of 1-D arrays: fails on an empty list or on arrays
of different lengths. -/
def npStack1 (ls : List (List ℚ)) : Except PyErr (List (List ℚ)) :=
  match ls with
  | [] => .error (PyErr.valueError "need at least one array to stack")
  | a :: rest =>
    if rest.all fun r => r.length = a.length then .ok (a :: rest)
    else .error (PyErr.valueError "all input arrays must have the same shape")

/-- Lines 116-143: read every channel column and stack into the
`[2, num_channels, T]` buffer. -/
def readAll (wb : Workbook) (pairs : List (String × String)) (j : ℕ) :
    Except PyErr T3 :=
  match readPairs wb pairs j with
  | .error e => .error e
  | .ok (os, rs) =>
    match npStack1 os with
    | .error e => .error e
    | .ok ho =>
      match npStack1 rs with
      | .error e => .error e
      | .ok hr =>
        if ho.map List.length = hr.map List.length then .ok [ho, hr]
        else .error (PyErr.valueError "all input arrays must have the same shape")

/-- Tensor slice `x[:, :, a : a+len]`, truncating at the available length. -/
def winSlice (x : T3) (a len : ℕ) : T3 :=
  x.map fun p => p.map fun r => (r.drop a).take len

/-- The nested lengths of a 3-D buffer (its shape signature). -/
def shapeSig (x : T3) : List (List ℕ) :=
  x.map fun p => p.map List.length

/-- Does every innermost list have length 1? -/
def allTimeOne (x : T3) : Bool :=
  x.all fun p => p.all fun r => r.length = 1

/-- Elementwise addition of two identically shaped buffers. -/
def addT (x y : T3) : T3 :=
  List.zipWith (List.zipWith (List.zipWith (· + ·))) x y

/-- Addition broadcasting a buffer whose time dimension is 1. -/
def addB (x y : T3) : T3 :=
  List.zipWith (List.zipWith fun r s => r.map fun v => v + s.getD 0 0) x y

/-- `torch` tensor addition: equal shapes add elementwise; a time dimension
of size 1 broadcasts; anything else raises a RuntimeError. -/
def torchAdd (x y : T3) : Except PyErr T3 :=
  if shapeSig x = shapeSig y then .ok (addT x y)
  else if x.map List.length = y.map List.length ∧ allTimeOne y = true then
    .ok (addB x y)
  else if x.map List.length = y.map List.length ∧ allTimeOne x = true then
    .ok (addB y x)
  else .error PyErr.runtimeError

/-- Halve every entry (the `/ 2.0` after window averaging). -/
def halfT (x : T3) : T3 :=
  x.map fun p => p.map fun r => r.map fun v => v / 2

/-- Is `"S"` among the event-map keys (line 146)? -/
def tertiaryKeys (em : List (String × ℤ)) : Bool :=
  (em.map Prod.fst).contains "S"

/-- Lines 145-167: the sliding-window processing keyed by regime and event
code.  The two averaged windows are `x[:, :, :target]` and
`x[:, :, off : off+target]`. -/
def window (st : DatasetState) (ev : Cell) (x : T3) : Except PyErr T3 :=
  if tertiaryKeys st.event_map then
    if ev = Cell.str "S" then .ok (winSlice x 0 st.target_length)
    else if ev = Cell.str "F" then
      match st.offset_F with
      | some oF =>
        (torchAdd (winSlice x 0 st.target_length)
          (winSlice x oF st.target_length)).map halfT
      | none => .error PyErr.attributeError
    else if ev = Cell.str "H" then
      (torchAdd (winSlice x 0 st.target_length)
        (winSlice x st.offset_H st.target_length)).map halfT
    else .ok (winSlice x 0 st.target_length)
  else
    if ev = Cell.str "F" then .ok (winSlice x 0 st.target_length)
    else if ev = Cell.str "H" then
      (torchAdd (winSlice x 0 st.target_length)
        (winSlice x st.offset_H st.target_length)).map halfT
    else .ok (winSlice x 0 st.target_length)

/-- `self.event_map.get(event, -1)` (line 169). -/
def labelOf (em : List (String × ℤ)) (ev : Cell) : ℤ :=
  match ev with
  | Cell.str s =>
    match em.lookup s with
    | some v => v
    | none => -1
  | _ => -1

/-- Python index adjustment: negative indices count from the end. -/
def pyAdjust (len : ℕ) (i : ℤ) : ℤ :=
  if i < 0 then i + len else i

/-- Python list indexing with an integer index: negative indices count from
the end; anything out of `[-len, len)` raises an IndexError. -/
def pyIndex (l : List α) (i : ℤ) : Except PyErr α :=
  match l[(pyAdjust l.length i).toNat]? with
  | some a =>
    if 0 ≤ pyAdjust l.length i then .ok a else .error PyErr.indexError
  | none => .error PyErr.indexError

/-- `fNIRSDataset.__getitem__(idx)`: resolve the metadata triple, re-read the
paired channel columns, window, and label. -/
def getitem (wb : Workbook) (st : DatasetState) (idx : ℤ) :
    Except PyErr (T3 × ℤ) :=
  match pyIndex st.samples_meta idx with
  | .error e => .error e
  | .ok (ev, _subj, col) =>
    match readAll wb st.hb_sheets (if st.drop_first then col + 1 else col) with
    | .error e => .error e
    | .ok raw =>
      match window st ev raw with
      | .error e => .error e
      | .ok out => .ok (out, labelOf st.event_map ev)

/-- Construct the dataset and access one sample in a single step. -/
def getitemFull (wb : Workbook) (split : String) (idx : ℤ) :
    Except PyErr (T3 × ℤ) :=
  match fNIRSDatasetInit wb split with
  | .error e => .error e
  | .ok st => getitem wb st idx

/-- Entry `x[k][c][t]` of a buffer, 0 outside the stored extent. -/
def at3 (x : T3) (k c t : ℕ) : ℚ :=
  ((x.getD k []).getD c []).getD t 0

/-- The time length of the first stored series. -/
def timeLen (x : T3) : ℕ := ((x.headD []).headD []).length

/-- Shape check: `x` is exactly an `a × b × c` buffer. -/
def hasShape3 (x : T3) (a b c : ℕ) : Bool :=
  (x.length == a) && x.all fun p => (p.length == b) && p.all fun r => r.length == c

/-- `x` is a rectangular 2-by-C-by-T buffer. -/
def Rect3 (x : T3) (C T : ℕ) : Prop :=
  x.length = 2 ∧ ∀ p ∈ x, p.length = C ∧ ∀ r ∈ p, r.length = T

/-- Minimal raw-series length for the tertiary window rule of an event to be
computable (averaged events need the second window to line up). -/
def eventMinLen : Cell → ℕ
  | Cell.str "F" => 4801
  | Cell.str "H" => 6801
  | _ => 0

/-- Minimal raw-series length for the binary window rule of an event. -/
def eventMinLenB : Cell → ℕ
  | Cell.str "H" => 6801
  | _ => 0

/-- Minimal raw-series length for a full-length tertiary sample. -/
def eventReqLen : Cell → ℕ
  | Cell.str "F" => 4801
  | Cell.str "H" => 6801
  | _ => 4549

/-- The value the specification asserts at `[k, c, t]` of a tertiary-regime
sample with event `ev` built from raw series `raw`. -/
def tertiaryTarget (ev : Cell) (raw : T3) (k c t : ℕ) : ℚ :=
  if ev = Cell.str "F" then (at3 raw k c t + at3 raw k c (t + 252)) / 2
  else if ev = Cell.str "H" then (at3 raw k c t + at3 raw k c (t + 2252)) / 2
  else at3 raw k c t

/-- The value the specification asserts at `[k, c, t]` of a binary-regime
sample with event `ev` built from raw series `raw`. -/
def binaryTarget (ev : Cell) (raw : T3) (k c t : ℕ) : ℚ :=
  if ev = Cell.str "H" then (at3 raw k c t + at3 raw k c (t + 2000)) / 2
  else at3 raw k c t

/-- Optional entry `x[k][c][t]`. -/
def get3 (x : T3) (k c t : ℕ) : Option ℚ :=
  (x[k]?.bind fun p => p[c]?).bind fun r => r[t]?

/-! ### Concrete workbooks and states used to settle the claims -/

/-- A workbook whose observed header event vocabulary is exactly {F, H}. -/
def wbC1 : Workbook :=
  [⟨"HbO 1,1", [[Cell.str "F", Cell.str "H"], [Cell.str "A", Cell.str "B"],
      [Cell.num 1, Cell.num 2]]⟩,
   ⟨"HbR 1,1", [[Cell.str "F", Cell.str "H"], [Cell.str "A", Cell.str "B"],
      [Cell.num 3, Cell.num 4]]⟩]

/-- A workbook whose observed header event vocabulary is {F, X}, outside both
supported regimes. -/
def wbC2 : Workbook :=
  [⟨"HbO 1,1", [[Cell.str "F", Cell.str "X"], [Cell.str "A", Cell.str "B"],
      [Cell.num 1, Cell.num 2]]⟩,
   ⟨"HbR 1,1", [[Cell.str "F", Cell.str "X"], [Cell.str "A", Cell.str "B"],
      [Cell.num 3, Cell.num 4]]⟩]

/-- The state `fNIRSDataset(wbC2, split="all")` constructs. -/
def stC2 : DatasetState :=
  { channels := ["1,1"], num_channels := 1,
    hb_sheets := [("HbO 1,1", "HbR 1,1")], drop_first := false,
    sample_headers := [(Cell.str "F", Cell.str "A"), (Cell.str "X", Cell.str "B")],
    samples_meta := [(Cell.str "F", Cell.str "A", 0), (Cell.str "X", Cell.str "B", 1)],
    sampling_points := 1, event_map := [("S", 0), ("F", 1), ("H", 2)],
    target_length := 4549, offset_F := some 252, offset_H := 2252 }

/-- A workbook with no classifiable sheet at all. -/
def wbC2bad : Workbook := [⟨"misc", [[Cell.str "S"], [Cell.str "A"]]⟩]

/-- A one-channel workbook with a single S sample and three data rows. -/
def wbC3 : Workbook :=
  [⟨"HbO 1,1", [[Cell.str "S"], [Cell.str "A"],
      [Cell.num 1], [Cell.num 2], [Cell.num 3]]⟩,
   ⟨"HbR 1,1", [[Cell.str "S"], [Cell.str "A"],
      [Cell.num 4], [Cell.num 5], [Cell.num 6]]⟩]

/-- The state `fNIRSDataset(wbC3, split="all")` constructs. -/
def stC3 : DatasetState :=
  { channels := ["1,1"], num_channels := 1,
    hb_sheets := [("HbO 1,1", "HbR 1,1")], drop_first := false,
    sample_headers := [(Cell.str "S", Cell.str "A")],
    samples_meta := [(Cell.str "S", Cell.str "A", 0)],
    sampling_points := 3, event_map := [("S", 0), ("F", 1), ("H", 2)],
    target_length := 4549, offset_F := some 252, offset_H := 2252 }

/-- The raw buffer `wbC3` materializes for its single sample (the scaled
values, kept in unreduced product form). -/
def rawC3 : T3 :=
  [[[(1 : ℚ) * 1000000, (2 : ℚ) * 1000000, (3 : ℚ) * 1000000]],
   [[(4 : ℚ) * 1000000, (5 : ℚ) * 1000000, (6 : ℚ) * 1000000]]]

/-- A one-channel workbook with a single F sample and two data rows. -/
def wbC4 : Workbook :=
  [⟨"HbO 1,1", [[Cell.str "F"], [Cell.str "A"], [Cell.num 1], [Cell.num 2]]⟩,
   ⟨"HbR 1,1", [[Cell.str "F"], [Cell.str "A"], [Cell.num 3], [Cell.num 4]]⟩]

/-- A dataset state carrying the binary-regime fields that the else-branch of
lines 104-107 assigns (label map {F:0, H:1}, target length 4801, offset 2000);
this branch is unreachable through construction. -/
def stC4 : DatasetState :=
  { channels := ["1,1"], num_channels := 1,
    hb_sheets := [("HbO 1,1", "HbR 1,1")], drop_first := false,
    sample_headers := [(Cell.str "F", Cell.str "A")],
    samples_meta := [(Cell.str "F", Cell.str "A", 0)],
    sampling_points := 2, event_map := [("F", 0), ("H", 1)],
    target_length := 4801, offset_F := none, offset_H := 2000 }

/-- The raw buffer `wbC4` materializes for its single sample. -/
def rawC4 : T3 :=
  [[[(1 : ℚ) * 1000000, (2 : ℚ) * 1000000]],
   [[(3 : ℚ) * 1000000, (4 : ℚ) * 1000000]]]

/-- A one-channel workbook whose sheets hold only three data rows, far fewer
than the tertiary target length. -/
def wbC5x : Workbook :=
  [⟨"HbO 1,1", [[Cell.str "S"], [Cell.str "A"],
      [Cell.num 7], [Cell.num 8], [Cell.num 9]]⟩,
   ⟨"HbR 1,1", [[Cell.str "S"], [Cell.str "A"],
      [Cell.num 1], [Cell.num 2], [Cell.num 3]]⟩]

/-- A one-channel workbook with exactly 4549 data rows (an S recording of
native length). -/
def wbC5 : Workbook :=
  [⟨"HbO 1,1", [Cell.str "S"] :: [Cell.str "A"] ::
      List.replicate 4549 [Cell.num 0]⟩,
   ⟨"HbR 1,1", [Cell.str "S"] :: [Cell.str "A"] ::
      List.replicate 4549 [Cell.num 0]⟩]

/-- The state `fNIRSDataset(wbC5, split="all")` constructs. -/
def stC5 : DatasetState :=
  { channels := ["1,1"], num_channels := 1,
    hb_sheets := [("HbO 1,1", "HbR 1,1")], drop_first := false,
    sample_headers := [(Cell.str "S", Cell.str "A")],
    samples_meta := [(Cell.str "S", Cell.str "A", 0)],
    sampling_points := 4549, event_map := [("S", 0), ("F", 1), ("H", 2)],
    target_length := 4549, offset_F := some 252, offset_H := 2252 }

/-- The raw buffer `wbC5` materializes: 4549 scaled zeros per series. -/
def rawC5 : T3 :=
  [[List.replicate 4549 ((0 : ℚ) * 1000000)],
   [List.replicate 4549 ((0 : ℚ) * 1000000)]]

/-- A workbook whose only sheet name lacks the hbo/hbr substring. -/
def wbC6bad : Workbook := [⟨"summary", [[Cell.str "S"], [Cell.str "A"]]⟩]

/-- A sheet that the scanner ignores (no hbo/hbr substring in the name). -/
def shC6 : Sheet := ⟨"notes", [[Cell.num 5]]⟩

/-- A well-formed one-channel workbook. -/
def wbC6good : Workbook :=
  [⟨"HbO 1,1", [[Cell.str "S"], [Cell.str "A"], [Cell.num 1]]⟩,
   ⟨"HbR 1,1", [[Cell.str "S"], [Cell.str "A"], [Cell.num 2]]⟩]

/-- A workbook with two subjects and three header columns. -/
def wbC7 : Workbook :=
  [⟨"HbO 1,1", [[Cell.str "S", Cell.str "F", Cell.str "H"],
      [Cell.str "A", Cell.str "B", Cell.str "A"],
      [Cell.num 1, Cell.num 2, Cell.num 3]]⟩,
   ⟨"HbR 1,1", [[Cell.str "S", Cell.str "F", Cell.str "H"],
      [Cell.str "A", Cell.str "B", Cell.str "A"],
      [Cell.num 4, Cell.num 5, Cell.num 6]]⟩]

/-- The state `fNIRSDataset(wbC7, split="all")` constructs. -/
def stC7 : DatasetState :=
  { channels := ["1,1"], num_channels := 1,
    hb_sheets := [("HbO 1,1", "HbR 1,1")], drop_first := false,
    sample_headers := [(Cell.str "S", Cell.str "A"), (Cell.str "F", Cell.str "B"),
      (Cell.str "H", Cell.str "A")],
    samples_meta := [(Cell.str "S", Cell.str "A", 0), (Cell.str "F", Cell.str "B", 1),
      (Cell.str "H", Cell.str "A", 2)],
    sampling_points := 1, event_map := [("S", 0), ("F", 1), ("H", 2)],
    target_length := 4549, offset_F := some 252, offset_H := 2252 }

/-- A workbook used to instantiate the split-partition property. -/
def wbC8 : Workbook :=
  [⟨"HbO 3,4", [[Cell.str "F", Cell.str "H"], [Cell.str "B", Cell.str "A"],
      [Cell.num 1, Cell.num 2]]⟩,
   ⟨"HbR 3,4", [[Cell.str "F", Cell.str "H"], [Cell.str "B", Cell.str "A"],
      [Cell.num 3, Cell.num 4]]⟩]

/-- The state `fNIRSDataset(wbC8, split="train")` constructs: both sorted
subjects A and B are among the first 16. -/
def stC8tr : DatasetState :=
  { channels := ["3,4"], num_channels := 1,
    hb_sheets := [("HbO 3,4", "HbR 3,4")], drop_first := false,
    sample_headers := [(Cell.str "F", Cell.str "B"), (Cell.str "H", Cell.str "A")],
    samples_meta := [(Cell.str "F", Cell.str "B", 0), (Cell.str "H", Cell.str "A", 1)],
    sampling_points := 1, event_map := [("S", 0), ("F", 1), ("H", 2)],
    target_length := 4549, offset_F := some 252, offset_H := 2252 }

/-- The state `fNIRSDataset(wbC8, split="test")` constructs: no subject is
left after the first 16, so no metadata is retained. -/
def stC8te : DatasetState :=
  { stC8tr with samples_meta := [] }

/-- The state `fNIRSDataset(wbC8, split="all")` constructs. -/
def stC8all : DatasetState := stC8tr

/-- A one-sample workbook used against the indexing claim. -/
def wbC9 : Workbook :=
  [⟨"HbO 1,1", [[Cell.str "S"], [Cell.str "A"], [Cell.num 2]]⟩,
   ⟨"HbR 1,1", [[Cell.str "S"], [Cell.str "A"], [Cell.num 3]]⟩]

/-- A small dataset state with one retained sample. -/
def stC9 : DatasetState :=
  { channels := ["1,1"], num_channels := 1,
    hb_sheets := [("HbO 1,1", "HbR 1,1")], drop_first := false,
    sample_headers := [(Cell.str "S", Cell.str "A")],
    samples_meta := [(Cell.str "S", Cell.str "A", 0)],
    sampling_points := 1, event_map := [("S", 0), ("F", 1), ("H", 2)],
    target_length := 4549, offset_F := some 252, offset_H := 2252 }

/-- A workbook with the two channel ids 10,1 and 2,2 (numerically the pair
(2,2) precedes (10,1), lexicographically the string "10,1" precedes "2,2"). -/
def wbC10 : Workbook :=
  [⟨"HbO 2,2", [[Cell.str "S"], [Cell.str "A"], [Cell.num 1]]⟩,
   ⟨"HbR 2,2", [[Cell.str "S"], [Cell.str "A"], [Cell.num 2]]⟩,
   ⟨"HbO 10,1", [[Cell.str "S"], [Cell.str "A"], [Cell.num 3]]⟩,
   ⟨"HbR 10,1", [[Cell.str "S"], [Cell.str "A"], [Cell.num 4]]⟩]

/-- The state `fNIRSDataset(wbC10, split="all")` constructs: channel "10,1"
is stacked before "2,2". -/
def stC10 : DatasetState :=
  { channels := ["10,1", "2,2"], num_channels := 2,
    hb_sheets := [("HbO 10,1", "HbR 10,1"), ("HbO 2,2", "HbR 2,2")],
    drop_first := false,
    sample_headers := [(Cell.str "S", Cell.str "A")],
    samples_meta := [(Cell.str "S", Cell.str "A", 0)],
    sampling_points := 1, event_map := [("S", 0), ("F", 1), ("H", 2)],
    target_length := 4549, offset_F := some 252, offset_H := 2252 }

/-- The raw buffer `wbC10` materializes: channel axis follows the channel
order "10,1", "2,2". -/
def rawC10 : T3 :=
  [[[(3 : ℚ) * 1000000], [(1 : ℚ) * 1000000]],
   [[(4 : ℚ) * 1000000], [(2 : ℚ) * 1000000]]]

/-! ### Theorems -/

theorem pyInsert_perm (le : α → α → Bool) (a : α) (l : List α) :
    (pyInsert le a l).Perm (a :: l) := by
  induction l with
  | nil => exact List.Perm.refl _
  | cons b t ih =>
    by_cases h : le a b = true
    · simp [pyInsert, h]
    · simp only [pyInsert, h, if_false]
      exact ((ih.cons b).trans (List.Perm.swap a b t))

theorem pySort_perm (le : α → α → Bool) (l : List α) : (pySort le l).Perm l := by
  induction l with
  | nil => exact List.Perm.refl _
  | cons a t ih =>
    exact (pyInsert_perm le a (pySort le t)).trans (ih.cons a)

theorem pyInsert_pairwise (le : α → α → Bool)
    (htot : ∀ x y, le x y = true ∨ le y x = true)
    (htrans : ∀ x y z, le x y = true → le y z = true → le x z = true)
    (a : α) (l : List α) (hl : l.Pairwise fun x y => le x y = true) :
    (pyInsert le a l).Pairwise fun x y => le x y = true := by
  induction l with
  | nil => simp [pyInsert]
  | cons b t ih =>
    rcases hl with _ | ⟨hb, ht⟩
    by_cases h : le a b = true
    · simp only [pyInsert, h, if_true]
      refine List.Pairwise.cons ?_ (List.Pairwise.cons hb ht)
      intro x hx
      rcases List.mem_cons.mp hx with rfl | hx2
      · exact h
      · exact htrans a b x h (hb x hx2)
    · have hba : le b a = true := (htot a b).resolve_left h
      simp only [pyInsert, h, if_false]
      refine List.Pairwise.cons ?_ (ih ht)
      intro x hx
      have hmem : x = a ∨ x ∈ t := by
        have := (pyInsert_perm le a t).mem_iff.mp hx
        simpa using this
      rcases hmem with rfl | hx2
      · exact hba
      · exact hb x hx2

theorem pySort_pairwise (le : α → α → Bool)
    (htot : ∀ x y, le x y = true ∨ le y x = true)
    (htrans : ∀ x y z, le x y = true → le y z = true → le x z = true)
    (l : List α) : (pySort le l).Pairwise fun x y => le x y = true := by
  induction l with
  | nil => simp [pySort]
  | cons a t ih => exact pyInsert_pairwise le htot htrans a (pySort le t) ih

/-! Totality and transitivity of the embedded Python string order. -/

theorem clLe_total : ∀ a b, clLe a b = true ∨ clLe b a = true := by
  intro a
  induction a with
  | nil => intro b; left; rfl
  | cons x xs ih =>
    intro b
    cases b with
    | nil => right; rfl
    | cons y ys =>
      rcases lt_trichotomy x y with h | h | h
      · left; simp [clLe, h]
      · subst h
        rcases ih ys with h2 | h2
        · left; simp [clLe, h2]
        · right; simp [clLe, h2]
      · right; simp [clLe, h]

theorem clLe_trans :
    ∀ a b c, clLe a b = true → clLe b c = true → clLe a c = true := by
  intro a
  induction a with
  | nil => intro b c _ _; rfl
  | cons x xs ih =>
    intro b c hab hbc
    cases b with
    | nil => exact absurd hab (by simp [clLe])
    | cons y ys =>
      cases c with
      | nil => exact absurd hbc (by simp [clLe])
      | cons z zs =>
        rcases lt_trichotomy x y with hxy | hxy | hxy
        · rcases lt_trichotomy y z with hyz | hyz | hyz
          · have hxz : x < z := lt_trans hxy hyz
            simp [clLe, hxz]
          · subst hyz; simp [clLe, hxy]
          · exact absurd hbc (by simp [clLe, hyz, lt_asymm hyz])
        · subst hxy
          simp only [clLe, lt_self_iff_false, if_false] at hab
          rcases lt_trichotomy x z with hxz | hxz | hxz
          · simp [clLe, hxz]
          · subst hxz
            simp only [clLe, lt_self_iff_false, if_false] at hbc ⊢
            exact ih ys zs hab hbc
          · exact absurd hbc (by simp [clLe, hxz, lt_asymm hxz])
        · exact absurd hab (by simp [clLe, hxy, lt_asymm hxy])

theorem strLeB_total (a b : String) : strLeB a b = true ∨ strLeB b a = true :=
  clLe_total a.data b.data

theorem strLeB_trans (a b c : String) :
    strLeB a b = true → strLeB b c = true → strLeB a c = true :=
  clLe_trans a.data b.data c.data

theorem at3_eq_get3 (x : T3) (k c t : ℕ) : at3 x k c t = (get3 x k c t).getD 0 := by
  unfold at3 get3
  rcases hk : x[k]? with _ | p
  · simp [List.getD_eq_getElem?_getD, hk]
  · rcases hc : p[c]? with _ | r
    · simp [List.getD_eq_getElem?_getD, hk, hc]
    · simp [List.getD_eq_getElem?_getD, hk, hc]

theorem zipWith_getElem? (f : α → β → γ) (l1 : List α) (l2 : List β) (i : ℕ) :
    (List.zipWith f l1 l2)[i]? = l1[i]?.bind fun a => l2[i]?.map (f a) := by
  induction l1 generalizing l2 i with
  | nil => simp
  | cons a t ih =>
    cases l2 with
    | nil => simp
    | cons b s =>
      cases i with
      | zero => simp
      | succ n => simpa using ih s n

theorem get3_winSlice (x : T3) (a L k c t : ℕ) (ht : t < L) :
    get3 (winSlice x a L) k c t = get3 x k c (a + t) := by
  unfold get3 winSlice
  rw [List.getElem?_map]
  rcases hk : x[k]? with _ | p
  · simp
  · simp only [Option.map_some', Option.some_bind]
    rw [List.getElem?_map]
    rcases hc : p[c]? with _ | r
    · simp
    · simp only [Option.map_some', Option.some_bind]
      rw [List.getElem?_take, if_pos ht, List.getElem?_drop]

theorem at3_winSlice (x : T3) (a L k c t : ℕ) (ht : t < L) :
    at3 (winSlice x a L) k c t = at3 x k c (a + t) := by
  rw [at3_eq_get3, at3_eq_get3, get3_winSlice x a L k c t ht]

/-- Shape-signature equality aligns the presence of entries level by level. -/
theorem sig_outer (x y : T3) (h : shapeSig x = shapeSig y) (k : ℕ) :
    (x[k]? = none ∧ y[k]? = none) ∨
      ∃ p q, x[k]? = some p ∧ y[k]? = some q ∧ p.map List.length = q.map List.length := by
  have hmap : (x.map fun p => p.map List.length)[k]? =
      (y.map fun p => p.map List.length)[k]? := by
    unfold shapeSig at h
    rw [h]
  rw [List.getElem?_map, List.getElem?_map] at hmap
  rcases hk : x[k]? with _ | p <;> rcases hk2 : y[k]? with _ | q <;>
    rw [hk, hk2] at hmap <;> simp at hmap
  · exact Or.inl ⟨rfl, rfl⟩
  · exact Or.inr ⟨p, q, rfl, rfl, hmap⟩

theorem row_align (p q : List (List ℚ)) (h : p.map List.length = q.map List.length)
    (c : ℕ) :
    (p[c]? = none ∧ q[c]? = none) ∨
      ∃ r s, p[c]? = some r ∧ q[c]? = some s ∧ r.length = s.length := by
  have hmap : (p.map List.length)[c]? = (q.map List.length)[c]? := by rw [h]
  rw [List.getElem?_map, List.getElem?_map] at hmap
  rcases hc : p[c]? with _ | r <;> rcases hc2 : q[c]? with _ | s <;>
    rw [hc, hc2] at hmap <;> simp at hmap
  · exact Or.inl ⟨rfl, rfl⟩
  · exact Or.inr ⟨r, s, rfl, rfl, hmap⟩

theorem at3_addT (x y : T3) (h : shapeSig x = shapeSig y) (k c t : ℕ) :
    at3 (addT x y) k c t = at3 x k c t + at3 y k c t := by
  rw [at3_eq_get3, at3_eq_get3, at3_eq_get3]
  unfold get3 addT
  rw [zipWith_getElem?]
  rcases sig_outer x y h k with ⟨hx, hy⟩ | ⟨p, q, hx, hy, hpq⟩
  · simp [hx, hy]
  · rw [hx, hy]
    simp only [Option.map_some', Option.some_bind]
    rw [zipWith_getElem?]
    rcases row_align p q hpq c with ⟨hp, hq⟩ | ⟨r, s, hp, hq, hrs⟩
    · simp [hp, hq]
    · rw [hp, hq]
      simp only [Option.map_some', Option.some_bind]
      rw [zipWith_getElem?]
      rcases hr : r[t]? with _ | a
      · have hs : s[t]? = none := by
          rw [List.getElem?_eq_none_iff] at hr ⊢
          omega
        simp [hs]
      · rcases hs : s[t]? with _ | b
        · rw [List.getElem?_eq_none_iff] at hs
          have : t < r.length := (List.getElem?_eq_some.mp hr).1
          omega
        · simp

theorem at3_halfT (z : T3) (k c t : ℕ) :
    at3 (halfT z) k c t = at3 z k c t / 2 := by
  rw [at3_eq_get3, at3_eq_get3]
  unfold get3 halfT
  rw [List.getElem?_map]
  rcases hk : z[k]? with _ | p
  · simp
  · simp only [Option.map_some', Option.some_bind]
    rw [List.getElem?_map]
    rcases hc : p[c]? with _ | r
    · simp
    · simp only [Option.map_some', Option.some_bind]
      rw [List.getElem?_map]
      rcases ht : r[t]? with _ | v
      · simp
      · simp

/-! ### Shape lemmas -/

theorem hasShape3_iff (x : T3) (a b c : ℕ) :
    hasShape3 x a b c = true ↔
      x.length = a ∧ ∀ p ∈ x, p.length = b ∧ ∀ r ∈ p, r.length = c := by
  unfold hasShape3
  simp [List.all_eq_true]

theorem shapeSig_winSlice (x : T3) (C T a L : ℕ) (hx : Rect3 x C T)
    (hL : a + L ≤ T) :
    shapeSig (winSlice x a L) = x.map fun p => p.map fun _ => L := by
  unfold shapeSig winSlice
  rw [List.map_map]
  refine List.map_congr_left ?_
  intro p hp
  simp only [Function.comp_apply, List.map_map]
  refine List.map_congr_left ?_
  intro r hr
  have hrT : r.length = T := ((hx.2 p hp).2 r hr)
  simp only [Function.comp_apply, List.length_take, List.length_drop, hrT]
  omega

theorem shapeSig_addT (x y : T3) (h : shapeSig x = shapeSig y) :
    shapeSig (addT x y) = shapeSig x := by
  unfold shapeSig addT
  apply List.ext_getElem?
  intro k
  rw [List.getElem?_map, zipWith_getElem?, List.getElem?_map]
  rcases sig_outer x y h k with ⟨hx, hy⟩ | ⟨p, q, hx, hy, hpq⟩
  · simp [hx, hy]
  · rw [hx, hy]
    simp only [Option.map_some', Option.some_bind]
    congr 1
    apply List.ext_getElem?
    intro c
    rw [List.getElem?_map, zipWith_getElem?, List.getElem?_map]
    rcases row_align p q hpq c with ⟨hp, hq⟩ | ⟨r, s, hp, hq, hrs⟩
    · simp [hp, hq]
    · rw [hp, hq]
      simp only [Option.map_some', Option.some_bind]
      simp [List.length_zipWith, hrs]

theorem shapeSig_halfT (z : T3) : shapeSig (halfT z) = shapeSig z := by
  unfold shapeSig halfT
  rw [List.map_map]
  refine List.map_congr_left ?_
  intro p _
  simp [List.map_map]

theorem hasShape3_of_sig (x : T3) (a b c : ℕ)
    (h : shapeSig x = List.replicate a (List.replicate b c)) :
    hasShape3 x a b c = true := by
  rw [hasShape3_iff]
  unfold shapeSig at h
  have hlen : x.length = a := by
    have := congrArg List.length h
    simpa using this
  refine ⟨hlen, ?_⟩
  intro p hp
  rcases List.mem_iff_getElem.mp hp with ⟨k, hk, rfl⟩
  have hmap : (x.map fun p => p.map List.length)[k]? =
      (List.replicate a (List.replicate b c))[k]? := by rw [h]
  rw [List.getElem?_map] at hmap
  rw [List.getElem?_eq_getElem hk] at hmap
  have hka : k < a := by omega
  rw [List.getElem?_replicate, if_pos hka] at hmap
  simp only [Option.map_some', Option.some.injEq] at hmap
  have hplen : x[k].length = b := by
    have := congrArg List.length hmap
    simpa using this
  refine ⟨hplen, ?_⟩
  intro r hr
  rcases List.mem_iff_getElem.mp hr with ⟨i, hi, rfl⟩
  have hmap2 : (x[k].map List.length)[i]? = (List.replicate b c)[i]? := by
    rw [hmap]
  rw [List.getElem?_map, List.getElem?_eq_getElem hi] at hmap2
  have hib : i < b := by omega
  rw [List.getElem?_replicate, if_pos hib] at hmap2
  simp only [Option.map_some', Option.some.injEq] at hmap2
  exact hmap2

/-! ### Lemmas about the reading pipeline -/

theorem mapExcept_ok_length (f : α → Except PyErr β) (l : List α) (l2 : List β)
    (h : mapExcept f l = .ok l2) : l2.length = l.length := by
  induction l generalizing l2 with
  | nil =>
    unfold mapExcept at h
    cases h
    rfl
  | cons a t ih =>
    unfold mapExcept at h
    rcases hfa : f a with e | b <;> rw [hfa] at h
    · cases h
    · rcases hrest : mapExcept f t with e | bs <;> rw [hrest] at h
      · cases h
      · cases h
        simpa using ih bs hrest

theorem mapExcept_replicate (f : α → Except PyErr β) (a : α) (b : β)
    (hf : f a = .ok b) (n : ℕ) :
    mapExcept f (List.replicate n a) = .ok (List.replicate n b) := by
  induction n with
  | zero => rfl
  | succ m ih =>
    rw [List.replicate_succ, List.replicate_succ]
    unfold mapExcept
    rw [hf, ih]

theorem readPairs_ok (wb : Workbook) (pairs : List (String × String)) (j : ℕ)
    (os rs : List (List ℚ)) (h : readPairs wb pairs j = .ok (os, rs)) :
    os.length = pairs.length ∧ rs.length = pairs.length ∧
      ∀ c, c < pairs.length →
        ∃ nmO nmR shO shR vO vR,
          pairs[c]? = some (nmO, nmR) ∧
          findSheet wb nmO = .ok shO ∧ readSeries shO j = .ok vO ∧
          os[c]? = some vO ∧
          findSheet wb nmR = .ok shR ∧ readSeries shR j = .ok vR ∧
          rs[c]? = some vR := by
  induction pairs generalizing os rs with
  | nil =>
    unfold readPairs at h
    cases h
    refine ⟨rfl, rfl, fun c hc => ?_⟩
    simp at hc
  | cons pr rest ih =>
    obtain ⟨nmO, nmR⟩ := pr
    unfold readPairs at h
    split at h
    · cases h
    rename_i shO h1
    split at h
    · cases h
    rename_i vO h2
    split at h
    · cases h
    rename_i shR h3
    split at h
    · cases h
    rename_i vR h4
    split at h
    · cases h
    rename_i os2 rs2 h5
    cases h
    obtain ⟨hl1, hl2, hpt⟩ := ih os2 rs2 h5
    refine ⟨by simpa using hl1, by simpa using hl2, ?_⟩
    intro c hc
    cases c with
    | zero =>
      exact ⟨nmO, nmR, shO, shR, vO, vR, by simp, h1, h2, by simp, h3, h4, by simp⟩
    | succ c2 =>
      have hc2 : c2 < rest.length := by simpa using hc
      obtain ⟨a1, a2, a3, a4, a5, a6, b1, b2, b3, b4, b5, b6, b7⟩ := hpt c2 hc2
      exact ⟨a1, a2, a3, a4, a5, a6, by simpa using b1, b2, b3,
        by simpa using b4, b5, b6, by simpa using b7⟩

theorem npStack1_ok (ls out : List (List ℚ)) (h : npStack1 ls = .ok out) :
    out = ls ∧ ls ≠ [] ∧ ∀ r ∈ ls, r.length = (ls.headD []).length := by
  rcases ls with _ | ⟨a, rest⟩
  · unfold npStack1 at h
    cases h
  · unfold npStack1 at h
    dsimp only at h
    by_cases hall : rest.all (fun r => r.length = a.length) = true
    · rw [if_pos hall] at h
      cases h
      refine ⟨rfl, by simp, ?_⟩
      intro r hr
      rcases List.mem_cons.mp hr with rfl | hr2
      · rfl
      · simpa using (List.all_eq_true.mp hall r hr2)
    · rw [if_neg hall] at h
      cases h

theorem readAll_ok (wb : Workbook) (pairs : List (String × String)) (j : ℕ)
    (raw : T3) (h : readAll wb pairs j = .ok raw) :
    ∃ os rs, readPairs wb pairs j = .ok (os, rs) ∧ raw = [os, rs] ∧
      Rect3 raw pairs.length (timeLen raw) := by
  unfold readAll at h
  split at h
  · cases h
  rename_i os rs h1
  split at h
  · cases h
  rename_i ho h2
  split at h
  · cases h
  rename_i hr h3
  split at h
  · rename_i h4
    cases h
    obtain ⟨rfl, hosne, hoslen⟩ := npStack1_ok os ho h2
    obtain ⟨rfl, hrsne, hrslen⟩ := npStack1_ok rs hr h3
    obtain ⟨hl1, hl2, _⟩ := readPairs_ok wb pairs j ho hr h1
    refine ⟨ho, hr, h1, rfl, ?_⟩
    rcases ho with _ | ⟨o0, os2⟩
    · exact absurd rfl hosne
    rcases hr with _ | ⟨r0, rs2⟩
    · exact absurd rfl hrsne
    have hheads : o0.length = r0.length := by
      have := congrArg (fun l => l[0]?) h4
      simpa using this
    have htl : timeLen [o0 :: os2, r0 :: rs2] = o0.length := rfl
    refine ⟨rfl, ?_⟩
    intro p hp
    rcases List.mem_cons.mp hp with rfl | hp2
    · refine ⟨by simpa using hl1, ?_⟩
      intro r hrr
      rw [htl]
      simpa using hoslen r hrr
    · rcases List.mem_cons.mp hp2 with rfl | hp3
      · refine ⟨by simpa using hl2, ?_⟩
        intro r hrr
        rw [htl]
        have := hrslen r hrr
        simp only [List.headD_cons] at this ⊢
        omega
      · simp at hp3
  · cases h

/-! ### Window lemmas -/

theorem torchAdd_eq (x y : T3) (h : shapeSig x = shapeSig y) :
    torchAdd x y = .ok (addT x y) := by
  unfold torchAdd
  rw [if_pos h]

theorem sig_slice_const (x : T3) (C T a L : ℕ) (hx : Rect3 x C T)
    (hL : a + L ≤ T) :
    shapeSig (winSlice x a L) = List.replicate 2 (List.replicate C L) := by
  rw [shapeSig_winSlice x C T a L hx hL]
  have h1 : x.map (fun p => p.map fun _ => L) =
      x.map fun _ => List.replicate C L := by
    refine List.map_congr_left ?_
    intro p hp
    rw [List.map_const']
    rw [(hx.2 p hp).1]
  rw [h1, List.map_const', hx.1]

theorem window_tertiary (st : DatasetState) (ev : Cell) (raw : T3) (C T : ℕ)
    (hkey : tertiaryKeys st.event_map = true)
    (htl : st.target_length = 4549)
    (hoF : st.offset_F = some 252)
    (hoH : st.offset_H = 2252)
    (hrect : Rect3 raw C T)
    (hT : eventMinLen ev ≤ T) :
    ∃ out, window st ev raw = .ok out ∧
      ∀ k c t, t < 4549 → at3 out k c t = tertiaryTarget ev raw k c t := by
  unfold window
  rw [if_pos hkey, htl, hoF, hoH]
  by_cases hS : ev = Cell.str "S"
  · rw [if_pos hS]
    refine ⟨_, rfl, ?_⟩
    intro k c t ht
    rw [at3_winSlice raw 0 4549 k c t ht]
    unfold tertiaryTarget
    rw [if_neg (by rw [hS]; decide), if_neg (by rw [hS]; decide), Nat.zero_add]
  · rw [if_neg hS]
    by_cases hF : ev = Cell.str "F"
    · rw [if_pos hF]
      have hTF : (4801 : ℕ) ≤ T := by
        rw [hF] at hT
        simpa [eventMinLen] using hT
      have hsig : shapeSig (winSlice raw 0 4549) =
          shapeSig (winSlice raw 252 4549) := by
        rw [sig_slice_const raw C T 0 4549 hrect (by omega),
          sig_slice_const raw C T 252 4549 hrect (by omega)]
      dsimp only
      rw [torchAdd_eq _ _ hsig]
      refine ⟨_, rfl, ?_⟩
      intro k c t ht
      rw [at3_halfT, at3_addT _ _ hsig, at3_winSlice raw 0 4549 k c t ht,
        at3_winSlice raw 252 4549 k c t ht]
      unfold tertiaryTarget
      rw [if_pos hF, Nat.zero_add, Nat.add_comm 252 t]
    · rw [if_neg hF]
      by_cases hH : ev = Cell.str "H"
      · rw [if_pos hH]
        have hTH : (6801 : ℕ) ≤ T := by
          rw [hH] at hT
          simpa [eventMinLen] using hT
        have hsig : shapeSig (winSlice raw 0 4549) =
            shapeSig (winSlice raw 2252 4549) := by
          rw [sig_slice_const raw C T 0 4549 hrect (by omega),
            sig_slice_const raw C T 2252 4549 hrect (by omega)]
        rw [torchAdd_eq _ _ hsig]
        refine ⟨_, rfl, ?_⟩
        intro k c t ht
        rw [at3_halfT, at3_addT _ _ hsig, at3_winSlice raw 0 4549 k c t ht,
          at3_winSlice raw 2252 4549 k c t ht]
        unfold tertiaryTarget
        rw [if_neg hF, if_pos hH, Nat.zero_add, Nat.add_comm 2252 t]
      · rw [if_neg hH]
        refine ⟨_, rfl, ?_⟩
        intro k c t ht
        rw [at3_winSlice raw 0 4549 k c t ht]
        unfold tertiaryTarget
        rw [if_neg hF, if_neg hH, Nat.zero_add]

theorem window_binary (st : DatasetState) (ev : Cell) (raw : T3) (C T : ℕ)
    (hkey : tertiaryKeys st.event_map = false)
    (htl : st.target_length = 4801)
    (hoH : st.offset_H = 2000)
    (hrect : Rect3 raw C T)
    (hT : eventMinLenB ev ≤ T) :
    ∃ out, window st ev raw = .ok out ∧
      ∀ k c t, t < 4801 → at3 out k c t = binaryTarget ev raw k c t := by
  unfold window
  rw [if_neg (by rw [hkey]; decide), htl, hoH]
  by_cases hF : ev = Cell.str "F"
  · rw [if_pos hF]
    refine ⟨_, rfl, ?_⟩
    intro k c t ht
    rw [at3_winSlice raw 0 4801 k c t ht]
    unfold binaryTarget
    rw [if_neg (by rw [hF]; decide), Nat.zero_add]
  · rw [if_neg hF]
    by_cases hH : ev = Cell.str "H"
    · rw [if_pos hH]
      have hTH : (6801 : ℕ) ≤ T := by
        rw [hH] at hT
        simpa [eventMinLenB] using hT
      have hsig : shapeSig (winSlice raw 0 4801) =
          shapeSig (winSlice raw 2000 4801) := by
        rw [sig_slice_const raw C T 0 4801 hrect (by omega),
          sig_slice_const raw C T 2000 4801 hrect (by omega)]
      rw [torchAdd_eq _ _ hsig]
      refine ⟨_, rfl, ?_⟩
      intro k c t ht
      rw [at3_halfT, at3_addT _ _ hsig, at3_winSlice raw 0 4801 k c t ht,
        at3_winSlice raw 2000 4801 k c t ht]
      unfold binaryTarget
      rw [if_pos hH, Nat.zero_add, Nat.add_comm 2000 t]
    · rw [if_neg hH]
      refine ⟨_, rfl, ?_⟩
      intro k c t ht
      rw [at3_winSlice raw 0 4801 k c t ht]
      unfold binaryTarget
      rw [if_neg hH, Nat.zero_add]

theorem window_shape (st : DatasetState) (ev : Cell) (raw : T3) (C T : ℕ)
    (hkey : tertiaryKeys st.event_map = true)
    (htl : st.target_length = 4549)
    (hoF : st.offset_F = some 252)
    (hoH : st.offset_H = 2252)
    (hrect : Rect3 raw C T)
    (hT : eventReqLen ev ≤ T) :
    ∃ out, window st ev raw = .ok out ∧
      shapeSig out = List.replicate 2 (List.replicate C 4549) := by
  unfold window
  rw [if_pos hkey, htl, hoF, hoH]
  by_cases hS : ev = Cell.str "S"
  · rw [if_pos hS]
    have hT2 : (4549 : ℕ) ≤ T := by
      rw [hS] at hT
      simpa [eventReqLen] using hT
    exact ⟨_, rfl, sig_slice_const raw C T 0 4549 hrect (by omega)⟩
  · rw [if_neg hS]
    by_cases hF : ev = Cell.str "F"
    · rw [if_pos hF]
      have hTF : (4801 : ℕ) ≤ T := by
        rw [hF] at hT
        simpa [eventReqLen] using hT
      have hsig : shapeSig (winSlice raw 0 4549) =
          shapeSig (winSlice raw 252 4549) := by
        rw [sig_slice_const raw C T 0 4549 hrect (by omega),
          sig_slice_const raw C T 252 4549 hrect (by omega)]
      dsimp only
      rw [torchAdd_eq _ _ hsig]
      refine ⟨_, rfl, ?_⟩
      rw [shapeSig_halfT, shapeSig_addT _ _ hsig,
        sig_slice_const raw C T 0 4549 hrect (by omega)]
    · rw [if_neg hF]
      by_cases hH : ev = Cell.str "H"
      · rw [if_pos hH]
        have hTH : (6801 : ℕ) ≤ T := by
          rw [hH] at hT
          simpa [eventReqLen] using hT
        have hsig : shapeSig (winSlice raw 0 4549) =
            shapeSig (winSlice raw 2252 4549) := by
          rw [sig_slice_const raw C T 0 4549 hrect (by omega),
            sig_slice_const raw C T 2252 4549 hrect (by omega)]
        rw [torchAdd_eq _ _ hsig]
        refine ⟨_, rfl, ?_⟩
        rw [shapeSig_halfT, shapeSig_addT _ _ hsig,
          sig_slice_const raw C T 0 4549 hrect (by omega)]
      · rw [if_neg hH]
        have hT2 : (4549 : ℕ) ≤ T := by
          rcases ev with s | q | _
          · by_cases h1 : s = "F"
            · exact absurd (by rw [h1]) hF
            · by_cases h2 : s = "H"
              · exact absurd (by rw [h2]) hH
              · revert hT
                unfold eventReqLen
                split <;> intro hT
                · omega
                · omega
                · omega
          · simpa [eventReqLen] using hT
          · simpa [eventReqLen] using hT
        exact ⟨_, rfl, sig_slice_const raw C T 0 4549 hrect (by omega)⟩

/-! ### Index-error and sorted-set lemmas -/

theorem pyIndex_out_of_range (l : List α) (i : ℤ)
    (h : i < -(l.length : ℤ) ∨ (l.length : ℤ) ≤ i) :
    pyIndex l i = .error PyErr.indexError := by
  unfold pyIndex
  rcases h with h | h
  · have hi : i < 0 := by
      have : (0 : ℤ) ≤ l.length := Int.natCast_nonneg _
      omega
    have hj : ¬(0 : ℤ) ≤ pyAdjust l.length i := by
      unfold pyAdjust
      rw [if_pos hi]
      omega
    rcases hget : l[(pyAdjust l.length i).toNat]? with _ | a
    · rfl
    · show (if 0 ≤ pyAdjust l.length i then Except.ok a
        else Except.error PyErr.indexError) = Except.error PyErr.indexError
      rw [if_neg hj]
  · have hi : ¬i < 0 := by
      have : (0 : ℤ) ≤ l.length := Int.natCast_nonneg _
      omega
    have hnone : l[(pyAdjust l.length i).toNat]? = none := by
      rw [List.getElem?_eq_none_iff]
      unfold pyAdjust
      rw [if_neg hi]
      omega
    rw [hnone]

theorem getitem_out_of_range (wb : Workbook) (st : DatasetState) (i : ℤ)
    (h : i < -(st.samples_meta.length : ℤ) ∨ (st.samples_meta.length : ℤ) ≤ i) :
    getitem wb st i = .error PyErr.indexError := by
  unfold getitem
  rw [pyIndex_out_of_range st.samples_meta i h]

theorem sortedSet_ok_perm (l d : List Cell) (h : sortedSet l = .ok d) :
    d.Perm l.dedup := by
  unfold sortedSet at h
  dsimp only at h
  by_cases h1 : l.dedup.length ≤ 1
  · rw [if_pos h1] at h
    cases h
    exact List.Perm.refl _
  · rw [if_neg h1] at h
    by_cases h2 : (l.dedup.all fun a => l.dedup.all fun b => cellCmpOk a b) = true
    · rw [if_pos h2] at h
      cases h
      exact pySort_perm cellLeB l.dedup
    · rw [if_neg h2] at h
      cases h

theorem sortedSet_ok_nodup (l d : List Cell) (h : sortedSet l = .ok d) :
    d.Nodup :=
  ((sortedSet_ok_perm l d h).symm.nodup (List.nodup_dedup l))

theorem sortedSet_ok_mem (l d : List Cell) (h : sortedSet l = .ok d) (a : Cell) :
    a ∈ d ↔ a ∈ l :=
  ((sortedSet_ok_perm l d h).mem_iff).trans List.mem_dedup

/-! ### Lemmas about the retained sample metadata -/

theorem metaOf_from_length (sel : List Cell) (hdrs : List (Cell × Cell)) :
    ∀ n, ((List.enumFrom n hdrs).filterMap fun p =>
        if p.2.2 ∈ sel then some (p.2.1, p.2.2, p.1) else none).length =
      hdrs.countP fun p => decide (p.2 ∈ sel) := by
  induction hdrs with
  | nil => intro n; rfl
  | cons a t ih =>
    intro n
    rw [List.enumFrom_cons, List.filterMap_cons, List.countP_cons]
    by_cases hmem : a.2 ∈ sel
    · rw [if_pos hmem]
      simp [ih, hmem]
    · rw [if_neg hmem]
      simp [ih, hmem]

theorem metaOf_from_mem (sel : List Cell) (hdrs : List (Cell × Cell))
    (e s : Cell) (i : ℕ) :
    ∀ n, (e, s, i) ∈ ((List.enumFrom n hdrs).filterMap fun p =>
        if p.2.2 ∈ sel then some (p.2.1, p.2.2, p.1) else none) →
      n ≤ i ∧ hdrs[i - n]? = some (e, s) ∧ s ∈ sel := by
  induction hdrs with
  | nil => intro n hmem; simp at hmem
  | cons a t ih =>
    intro n hmem
    rw [List.enumFrom_cons, List.filterMap_cons] at hmem
    by_cases hsel : a.2 ∈ sel
    · rw [if_pos hsel] at hmem
      rcases List.mem_cons.mp hmem with heq | htail
      · have he : e = a.1 := congrArg Prod.fst heq
        have hs : s = a.2 := congrArg (fun p => p.2.1) heq
        have hi : i = n := congrArg (fun p => p.2.2) heq
        subst he
        subst hs
        subst hi
        refine ⟨le_refl _, ?_, hsel⟩
        rw [Nat.sub_self]
        simp
      · obtain ⟨hn, hget, hmem2⟩ := ih (n + 1) htail
        refine ⟨by omega, ?_, hmem2⟩
        have : i - n = (i - (n + 1)) + 1 := by omega
        rw [this, List.getElem?_cons_succ]
        exact hget
    · rw [if_neg hsel] at hmem
      obtain ⟨hn, hget, hmem2⟩ := ih (n + 1) hmem
      refine ⟨by omega, ?_, hmem2⟩
      have : i - n = (i - (n + 1)) + 1 := by omega
      rw [this, List.getElem?_cons_succ]
      exact hget

theorem metaOf_from_lb (sel : List Cell) (hdrs : List (Cell × Cell)) :
    ∀ n x, x ∈ ((List.enumFrom n hdrs).filterMap fun p =>
        if p.2.2 ∈ sel then some (p.2.1, p.2.2, p.1) else none) →
      n ≤ x.2.2 := by
  induction hdrs with
  | nil => intro n x hx; simp at hx
  | cons a t ih =>
    intro n x hx
    rw [List.enumFrom_cons, List.filterMap_cons] at hx
    by_cases hsel : a.2 ∈ sel
    · rw [if_pos hsel] at hx
      rcases List.mem_cons.mp hx with rfl | htail
      · exact le_refl _
      · have := ih (n + 1) x htail
        omega
    · rw [if_neg hsel] at hx
      have := ih (n + 1) x hx
      omega

theorem metaOf_from_pairwise (sel : List Cell) (hdrs : List (Cell × Cell)) :
    ∀ n, ((List.enumFrom n hdrs).filterMap fun p =>
        if p.2.2 ∈ sel then some (p.2.1, p.2.2, p.1) else none).Pairwise
      fun a b => a.2.2 < b.2.2 := by
  induction hdrs with
  | nil => intro n; simp
  | cons a t ih =>
    intro n
    rw [List.enumFrom_cons, List.filterMap_cons]
    by_cases hsel : a.2 ∈ sel
    · rw [if_pos hsel]
      refine List.Pairwise.cons ?_ (ih (n + 1))
      intro x hx
      have h2 := metaOf_from_lb sel t (n + 1) x hx
      show n < x.2.2
      omega
    · rw [if_neg hsel]
      exact ih (n + 1)

theorem metaOf_length (sel : List Cell) (hdrs : List (Cell × Cell)) :
    (metaOf hdrs sel).length = hdrs.countP fun p => decide (p.2 ∈ sel) := by
  unfold metaOf
  rw [List.enum_eq_enumFrom]
  exact metaOf_from_length sel hdrs 0

theorem metaOf_mem (sel : List Cell) (hdrs : List (Cell × Cell))
    (e s : Cell) (i : ℕ) (h : (e, s, i) ∈ metaOf hdrs sel) :
    hdrs[i]? = some (e, s) ∧ s ∈ sel := by
  unfold metaOf at h
  rw [List.enum_eq_enumFrom] at h
  obtain ⟨_, hget, hmem⟩ := metaOf_from_mem sel hdrs e s i 0 h
  rw [Nat.sub_zero] at hget
  exact ⟨hget, hmem⟩

theorem metaOf_pairwise (sel : List Cell) (hdrs : List (Cell × Cell)) :
    (metaOf hdrs sel).Pairwise fun a b => a.2.2 < b.2.2 := by
  unfold metaOf
  rw [List.enum_eq_enumFrom]
  exact metaOf_from_pairwise sel hdrs 0

/-! ### Inversion of a successful construction -/

theorem init_ok_inv (wb : Workbook) (split : String) (st : DatasetState)
    (h : fNIRSDatasetInit wb split = .ok st) :
    ∃ sheet all_subjects sel,
      (channelsOf wb).isEmpty = false ∧
      findSheet wb ((hbSheetsOf wb).headD ("", "")).1 = .ok sheet ∧
      headerPart sheet.rows = .ok (st.sample_headers, st.drop_first) ∧
      sortedSet (st.sample_headers.map Prod.snd) = .ok all_subjects ∧
      splitSelect split all_subjects = .ok sel ∧
      st.channels = channelsOf wb ∧
      st.num_channels = (channelsOf wb).length ∧
      st.hb_sheets = hbSheetsOf wb ∧
      st.samples_meta = metaOf st.sample_headers sel ∧
      st.sampling_points = sheet.rows.length - 2 ∧
      st.event_map = [("S", 0), ("F", 1), ("H", 2)] ∧
      st.target_length = 4549 ∧
      st.offset_F = some 252 ∧
      st.offset_H = 2252 := by
  unfold fNIRSDatasetInit at h
  split at h
  · cases h
  rename_i hne
  split at h
  · cases h
  rename_i sheet hsheet
  unfold initFromRows at h
  split at h
  · cases h
  rename_i sHeaders dropF hhp
  split at h
  · cases h
  rename_i subs hsubs
  split at h
  · cases h
  rename_i sel hsel
  cases h
  refine ⟨sheet, subs, sel, by simpa using hne, hsheet, hhp, hsubs, hsel,
    rfl, rfl, rfl, rfl, rfl, rfl, rfl, rfl, rfl⟩

/-! ### Ignored sheets do not affect construction -/

theorem cidsOf_cons_none (sh : Sheet) (wb : Workbook)
    (h : classify sh.name = none) : cidsOf (sh :: wb) = cidsOf wb := by
  unfold cidsOf
  rw [List.filterMap_cons]
  simp [h]

theorem hbName_cons_none (sh : Sheet) (wb : Workbook) (k : Bool) (cid : String)
    (h : classify sh.name = none) : hbName (sh :: wb) k cid = hbName wb k cid := by
  unfold hbName
  rw [List.filterMap_cons]
  simp [h]

theorem channelsOf_cons_none (sh : Sheet) (wb : Workbook)
    (h : classify sh.name = none) : channelsOf (sh :: wb) = channelsOf wb := by
  unfold channelsOf
  rw [cidsOf_cons_none sh wb h]
  congr 1
  refine List.filter_congr ?_
  intro cid _
  rw [hbName_cons_none sh wb true cid h, hbName_cons_none sh wb false cid h]

theorem hbSheetsOf_cons_none (sh : Sheet) (wb : Workbook)
    (h : classify sh.name = none) : hbSheetsOf (sh :: wb) = hbSheetsOf wb := by
  unfold hbSheetsOf
  rw [channelsOf_cons_none sh wb h]
  refine List.map_congr_left ?_
  intro cid _
  rw [hbName_cons_none sh wb true cid h, hbName_cons_none sh wb false cid h]

theorem hbName_classify (wb : Workbook) (k : Bool) (cid nm : String)
    (h : hbName wb k cid = some nm) : classify nm = some (k, cid) := by
  unfold hbName at h
  have hopt : nm ∈ (wb.filterMap fun sh =>
      match classify sh.name with
      | some (k2, c) => if k2 = k ∧ c = cid then some sh.name else none
      | none => none).getLast? := by
    rw [Option.mem_def]
    exact h
  obtain ⟨hne, heq⟩ := List.mem_getLast?_eq_getLast hopt
  have hmem : nm ∈ wb.filterMap fun sh =>
      match classify sh.name with
      | some (k2, c) => if k2 = k ∧ c = cid then some sh.name else none
      | none => none := by
    rw [heq]
    exact List.getLast_mem hne
  rw [List.mem_filterMap] at hmem
  obtain ⟨sh, _, hsh⟩ := hmem
  rcases hcl : classify sh.name with _ | p
  · rw [hcl] at hsh
    cases hsh
  · obtain ⟨k2, c⟩ := p
    rw [hcl] at hsh
    dsimp only at hsh
    by_cases hcond : k2 = k ∧ c = cid
    · rw [if_pos hcond] at hsh
      cases hsh
      rw [hcl, hcond.1, hcond.2]
    · rw [if_neg hcond] at hsh
      cases hsh

theorem channelsOf_mem (wb : Workbook) (cid : String) (h : cid ∈ channelsOf wb) :
    (hbName wb true cid).isSome = true ∧ (hbName wb false cid).isSome = true := by
  unfold channelsOf at h
  have h2 := (pySort_perm strLeB _).mem_iff.mp h
  have h3 := List.mem_filter.mp h2
  have h4 := h3.2
  simp only [Bool.and_eq_true] at h4
  exact h4

theorem init_cons_ignored (sh : Sheet) (wb : Workbook) (split : String)
    (h : classify sh.name = none) :
    fNIRSDatasetInit (sh :: wb) split = fNIRSDatasetInit wb split := by
  unfold fNIRSDatasetInit
  rw [channelsOf_cons_none sh wb h, hbSheetsOf_cons_none sh wb h]
  by_cases he : (channelsOf wb).isEmpty = true
  · rw [if_pos he, if_pos he]
  · rw [if_neg he, if_neg he]
    have hfind : findSheet (sh :: wb) ((hbSheetsOf wb).headD ("", "")).1 =
        findSheet wb ((hbSheetsOf wb).headD ("", "")).1 := by
      rcases hch : channelsOf wb with _ | ⟨c0, crest⟩
      · rw [hch] at he
        simp at he
      · have hc0 : c0 ∈ channelsOf wb := by
          rw [hch]
          exact List.mem_cons_self c0 crest
        obtain ⟨hO, _⟩ := channelsOf_mem wb c0 hc0
        rcases hOn : hbName wb true c0 with _ | nm
        · rw [hOn] at hO
          cases hO
        · have hhead : ((hbSheetsOf wb).headD ("", "")).1 = nm := by
            unfold hbSheetsOf
            rw [hch]
            simp [hOn]
          rw [hhead]
          have hne2 : classify nm = some (true, c0) := hbName_classify wb true c0 nm hOn
          have hnm : ¬(sh.name == nm) = true := by
            intro hcontra
            rw [beq_iff_eq] at hcontra
            rw [hcontra] at h
            rw [h] at hne2
            cases hne2
          have hfind2 : List.find? (fun sh2 : Sheet => sh2.name == nm)
              (sh :: wb) = List.find? (fun sh2 : Sheet => sh2.name == nm) wb :=
            List.find?_cons_of_neg wb hnm
          unfold findSheet
          rw [hfind2]
    rw [hfind]

/-- The post-channel-scan part of construction never raises the
no-valid-channels error. -/
theorem initFromRows_error_ne (chans : List String)
    (hb : List (String × String)) (split : String) (rows : List (List Cell))
    (e : PyErr) (h : initFromRows chans hb split rows = .error e) :
    e = PyErr.indexError ∨ e = PyErr.typeError ∨ e = ConfigError := by
  unfold initFromRows at h
  split at h
  · rename_i e2 hhp
    cases h
    unfold headerPart at hhp
    split at hhp
    · split at hhp
      · cases hhp
        exact Or.inl rfl
      · split at hhp
        · cases hhp
        · cases hhp
    · cases hhp
      exact Or.inl rfl
  rename_i sHeaders dropF hhp
  split at h
  · rename_i e2 hss
    cases h
    unfold sortedSet at hss
    dsimp only at hss
    split at hss
    · cases hss
    · split at hss
      · cases hss
      · cases hss
        exact Or.inr (Or.inl rfl)
  rename_i subs hsubs
  split at h
  · rename_i e2 hsel
    cases h
    unfold splitSelect at hsel
    split at hsel
    · cases hsel
    · split at hsel
      · cases hsel
      · split at hsel
        · cases hsel
        · cases hsel
          exact Or.inr (Or.inr rfl)
  · cases h

/-! ### Claims -/

/-- C1: the claim says a workbook whose header event codes are exactly
{F, H} selects the binary regime (label map {F:0, H:1}, target length 4801,
offset H = 2000).  The code disagrees: line 99 compares the constant
`expected_events` of line 69 with itself, so construction always selects the
tertiary regime.  On `wbC1`, whose event vocabulary is exactly {F, H},
construction yields target length 4549, the tertiary label map and
offset H = 2252. -/
theorem c1_regime_selection_bug :
    headerEventsOf wbC1 = .ok [Cell.str "F", Cell.str "H"] ∧
    (fNIRSDatasetInit wbC1 "all").map
        (fun st => (st.target_length, st.event_map, st.offset_H)) =
      .ok (4549, [("S", 0), ("F", 1), ("H", 2)], 2252) := by
  constructor
  · decide
  · decide

/-- C2 counterexample: the claim says construction fails with SchemaError on
`wbC2`, whose event vocabulary {F, X} is neither {S, F, H} nor {F, H}.
Construction in fact succeeds (and lands in the tertiary regime). -/
theorem c2_counterexample :
    headerEventsOf wbC2 = .ok [Cell.str "F", Cell.str "X"] ∧
    fNIRSDatasetInit wbC2 "all" = .ok stC2 := by
  constructor
  · decide
  · decide

/-- C2 amended: construction never inspects the observed event vocabulary:
every successfully constructed instance carries the tertiary regime fields
whatever the header event codes were, and the SchemaError (the
no-valid-channels ValueError) is raised only when the channel scan finds
zero valid channel pairs. -/
theorem c2_vocab_never_checked :
    (∀ wb split st, fNIRSDatasetInit wb split = .ok st →
      st.event_map = [("S", 0), ("F", 1), ("H", 2)] ∧
      st.target_length = 4549) ∧
    (∀ wb split, fNIRSDatasetInit wb split = .error SchemaError →
      channelsOf wb = []) := by
  constructor
  · intro wb split st h
    obtain ⟨_, _, _, _, _, _, _, _, _, _, _, _, _, hmap, htl, _, _⟩ :=
      init_ok_inv wb split st h
    exact ⟨hmap, htl⟩
  · intro wb split h
    unfold fNIRSDatasetInit at h
    split at h
    · rename_i he
      exact List.isEmpty_iff.mp he
    rename_i he
    split at h
    · rename_i e2 hfs
      cases h
      unfold findSheet at hfs
      split at hfs
      · cases hfs
      · cases hfs
    rename_i sheet hfs
    rcases initFromRows_error_ne (channelsOf wb) (hbSheetsOf wb) split
      sheet.rows SchemaError h with h2 | h2 | h2
    · cases h2
    · cases h2
    · exact absurd h2 (by decide)

/-- C2 witness: the amended claim instantiated on `wbC2` (construction
succeeds, tertiary fields) and on `wbC2bad` (SchemaError, no channels). -/
theorem c2_vocab_never_checked_witness :
    (fNIRSDatasetInit wbC2 "all" = .ok stC2 ∧
      stC2.event_map = [("S", 0), ("F", 1), ("H", 2)] ∧
      stC2.target_length = 4549) ∧
    (fNIRSDatasetInit wbC2bad "all" = .error SchemaError ∧
      channelsOf wbC2bad = []) :=
  ⟨⟨by decide, c2_vocab_never_checked.1 wbC2 "all" stC2 (by decide)⟩,
    ⟨by decide, c2_vocab_never_checked.2 wbC2bad "all" (by decide)⟩⟩

/-- C9 counterexample: the claim says every negative index fails with
IndexError; on a one-sample handle, `get(handle, -1)` in fact succeeds and
returns the last sample (label 0). -/
theorem c9_counterexample :
    (fNIRSDatasetInit wbC9 "all").map (fun st => st.samples_meta.length) =
      .ok 1 ∧
    (getitemFull wbC9 "all" (-1)).map (fun p => p.2) = .ok 0 := by
  constructor
  · decide
  · decide

/-- C9 amended: access fails with IndexError exactly on the indices Python
rejects: `index ≥ len` or `index < -len`; a negative index in `[-len, -1]`
instead aliases to `len + index`.  In particular `get(handle, len(handle))`
fails with IndexError. -/
theorem c9_index_error_amended (wb : Workbook) (st : DatasetState) (i : ℤ)
    (h : i < -(st.samples_meta.length : ℤ) ∨ (st.samples_meta.length : ℤ) ≤ i) :
    getitem wb st i = .error PyErr.indexError :=
  getitem_out_of_range wb st i h

/-- C9 witness: the amended claim instantiated at index `len(handle)` of a
one-sample state. -/
theorem c9_index_error_amended_witness :
    ((1 : ℤ) < -(stC9.samples_meta.length : ℤ) ∨
      (stC9.samples_meta.length : ℤ) ≤ 1) ∧
    getitem wbC9 stC9 1 = .error PyErr.indexError :=
  ⟨Or.inr (by decide),
    c9_index_error_amended wbC9 stC9 1 (Or.inr (by decide))⟩

/-- C6: construction fails with SchemaError (the no-valid-channels
ValueError) whenever the channel scan yields zero valid channel ids, and a
sheet the scanner ignores (no hbo/hbr substring or no channel-id pattern)
never changes the result of construction by itself. -/
theorem c6_schema_error_no_channels :
    (∀ wb split, channelsOf wb = [] →
      fNIRSDatasetInit wb split = .error SchemaError) ∧
    (∀ sh wb split, classify sh.name = none →
      fNIRSDatasetInit (sh :: wb) split = fNIRSDatasetInit wb split) := by
  constructor
  · intro wb split h
    unfold fNIRSDatasetInit
    rw [h]
    rfl
  · intro sh wb split h
    exact init_cons_ignored sh wb split h

/-- C6 witness: a workbook holding only an ignored sheet has no valid
channels and fails with SchemaError; prepending an ignored sheet to a valid
workbook leaves construction unchanged. -/
theorem c6_schema_error_no_channels_witness :
    channelsOf wbC6bad = [] ∧
    fNIRSDatasetInit wbC6bad "all" = .error SchemaError ∧
    classify shC6.name = none ∧
    fNIRSDatasetInit (shC6 :: wbC6good) "all" = fNIRSDatasetInit wbC6good "all" :=
  ⟨by decide,
    c6_schema_error_no_channels.1 wbC6bad "all" (by decide),
    by decide,
    c6_schema_error_no_channels.2 shC6 wbC6good "all" (by decide)⟩

/-- C7: the retained sample metadata of every constructed instance consists
of exactly the header entries whose subject lies in the selected split, in
original column order with original column indices: its length is the count
of matching header entries, every triple points back at its header entry,
and the stored column indices are strictly increasing. -/
theorem c7_meta_selection (wb : Workbook) (split : String) (st : DatasetState)
    (h : fNIRSDatasetInit wb split = .ok st) :
    ∃ subs sel,
      sortedSet (st.sample_headers.map Prod.snd) = .ok subs ∧
      splitSelect split subs = .ok sel ∧
      st.samples_meta.length =
        st.sample_headers.countP (fun p => decide (p.2 ∈ sel)) ∧
      (∀ e s i, (e, s, i) ∈ st.samples_meta →
        st.sample_headers[i]? = some (e, s) ∧ s ∈ sel) ∧
      st.samples_meta.Pairwise fun a b => a.2.2 < b.2.2 := by
  obtain ⟨_, subs, sel, _, _, _, hsubs, hsel, _, _, _, hmeta, _, _, _, _, _⟩ :=
    init_ok_inv wb split st h
  refine ⟨subs, sel, hsubs, hsel, ?_, ?_, ?_⟩
  · rw [hmeta]
    exact metaOf_length sel st.sample_headers
  · intro e s i hm
    rw [hmeta] at hm
    exact metaOf_mem sel st.sample_headers e s i hm
  · rw [hmeta]
    exact metaOf_pairwise sel st.sample_headers

/-- C7 witness: the metadata property instantiated on `wbC7`. -/
theorem c7_meta_selection_witness :
    fNIRSDatasetInit wbC7 "all" = .ok stC7 ∧
    ∃ subs sel,
      sortedSet (stC7.sample_headers.map Prod.snd) = .ok subs ∧
      splitSelect "all" subs = .ok sel ∧
      stC7.samples_meta.length =
        stC7.sample_headers.countP (fun p => decide (p.2 ∈ sel)) ∧
      (∀ e s i, (e, s, i) ∈ stC7.samples_meta →
        stC7.sample_headers[i]? = some (e, s) ∧ s ∈ sel) ∧
      stC7.samples_meta.Pairwise fun a b => a.2.2 < b.2.2 :=
  ⟨by decide, c7_meta_selection wbC7 "all" stC7 (by decide)⟩

/-- C8: for train, test and all instances constructed from one workbook, the
subject list is the sorted deduplicated header subjects; train selects its
first 16 entries and test the rest, so the two selections are disjoint,
their concatenation is the whole subject list, and that list contains
exactly the header subjects (the selection of `split="all"`). -/
theorem c8_split_partition (wb : Workbook) (stTr stTe stAll : DatasetState)
    (htr : fNIRSDatasetInit wb "train" = .ok stTr)
    (hte : fNIRSDatasetInit wb "test" = .ok stTe)
    (hall : fNIRSDatasetInit wb "all" = .ok stAll) :
    ∃ subs,
      stTr.sample_headers = stAll.sample_headers ∧
      stTe.sample_headers = stAll.sample_headers ∧
      sortedSet (stAll.sample_headers.map Prod.snd) = .ok subs ∧
      splitSelect "train" subs = .ok (subs.take 16) ∧
      splitSelect "test" subs = .ok (subs.drop 16) ∧
      splitSelect "all" subs = .ok subs ∧
      stTr.samples_meta = metaOf stAll.sample_headers (subs.take 16) ∧
      stTe.samples_meta = metaOf stAll.sample_headers (subs.drop 16) ∧
      stAll.samples_meta = metaOf stAll.sample_headers subs ∧
      List.Disjoint (subs.take 16) (subs.drop 16) ∧
      subs.take 16 ++ subs.drop 16 = subs ∧
      (∀ s, s ∈ subs ↔ s ∈ stAll.sample_headers.map Prod.snd) := by
  obtain ⟨sheetT, subsT, selT, _, hfT, hhpT, hsubsT, hselT, _, _, _, hmetaT,
    _, _, _, _, _⟩ := init_ok_inv wb "train" stTr htr
  obtain ⟨sheetE, subsE, selE, _, hfE, hhpE, hsubsE, hselE, _, _, _, hmetaE,
    _, _, _, _, _⟩ := init_ok_inv wb "test" stTe hte
  obtain ⟨sheetA, subsA, selA, _, hfA, hhpA, hsubsA, hselA, _, _, _, hmetaA,
    _, _, _, _, _⟩ := init_ok_inv wb "all" stAll hall
  have hsheetTA : sheetT = sheetA := by
    rw [hfT] at hfA
    exact Except.ok.injEq .. ▸ hfA
  have hsheetEA : sheetE = sheetA := by
    rw [hfE] at hfA
    exact Except.ok.injEq .. ▸ hfA
  subst hsheetTA
  subst hsheetEA
  have hhdrT : stTr.sample_headers = stAll.sample_headers ∧
      stTr.drop_first = stAll.drop_first := by
    rw [hhpT] at hhpA
    have := Except.ok.injEq .. ▸ hhpA
    exact ⟨congrArg Prod.fst this, congrArg Prod.snd this⟩
  have hhdrE : stTe.sample_headers = stAll.sample_headers ∧
      stTe.drop_first = stAll.drop_first := by
    rw [hhpE] at hhpA
    have := Except.ok.injEq .. ▸ hhpA
    exact ⟨congrArg Prod.fst this, congrArg Prod.snd this⟩
  have hsubsTA : subsT = subsA := by
    rw [hhdrT.1] at hsubsT
    rw [hsubsT] at hsubsA
    exact (Except.ok.injEq .. ▸ hsubsA)
  have hsubsEA : subsE = subsA := by
    rw [hhdrE.1] at hsubsE
    rw [hsubsE] at hsubsA
    exact (Except.ok.injEq .. ▸ hsubsA)
  have hselTr : selT = subsA.take 16 := by
    rw [hsubsTA] at hselT
    unfold splitSelect at hselT
    rw [if_pos rfl] at hselT
    exact (Except.ok.injEq .. ▸ hselT).symm
  have hselTe : selE = subsA.drop 16 := by
    rw [hsubsEA] at hselE
    unfold splitSelect at hselE
    rw [if_neg (by decide), if_pos rfl] at hselE
    exact (Except.ok.injEq .. ▸ hselE).symm
  have hselAll : selA = subsA := by
    unfold splitSelect at hselA
    rw [if_neg (by decide), if_neg (by decide), if_pos (Or.inl rfl)] at hselA
    exact (Except.ok.injEq .. ▸ hselA).symm
  have hnodup : subsA.Nodup :=
    sortedSet_ok_nodup (stAll.sample_headers.map Prod.snd) subsA hsubsA
  refine ⟨subsA, hhdrT.1, hhdrE.1, hsubsA, ?_, ?_, ?_, ?_, ?_, ?_, ?_, ?_, ?_⟩
  · unfold splitSelect
    rw [if_pos rfl]
  · unfold splitSelect
    rw [if_neg (by decide), if_pos rfl]
  · unfold splitSelect
    rw [if_neg (by decide), if_neg (by decide), if_pos (Or.inl rfl)]
  · rw [hmetaT, hhdrT.1, hselTr]
  · rw [hmetaE, hhdrE.1, hselTe]
  · rw [hmetaA, hselAll]
  · exact List.disjoint_take_drop hnodup (le_refl 16)
  · exact List.take_append_drop 16 subsA
  · intro s
    exact sortedSet_ok_mem (stAll.sample_headers.map Prod.snd) subsA hsubsA s

/-- C8 witness: the partition property instantiated on `wbC8`, whose two
subjects A and B all fall into the train selection. -/
theorem c8_split_partition_witness :
    (fNIRSDatasetInit wbC8 "train" = .ok stC8tr ∧
      fNIRSDatasetInit wbC8 "test" = .ok stC8te ∧
      fNIRSDatasetInit wbC8 "all" = .ok stC8all) ∧
    ∃ subs,
      sortedSet (stC8all.sample_headers.map Prod.snd) = .ok subs ∧
      List.Disjoint (subs.take 16) (subs.drop 16) ∧
      subs.take 16 ++ subs.drop 16 = subs := by
  refine ⟨⟨by decide, by decide, by decide⟩, ?_⟩
  obtain ⟨subs, _, _, h3, _, _, _, _, _, _, h10, h11, _⟩ :=
    c8_split_partition wbC8 stC8tr stC8te stC8all (by decide) (by decide)
      (by decide)
  exact ⟨subs, h3, h10, h11⟩

/-- C3: in the tertiary regime (which every constructed instance carries),
the materialized buffer relates pointwise to the stacked scaled raw series:
event F averages the windows at offsets 0 and 252, event H at offsets 0 and
2252, and event S copies the first 4549 points verbatim. -/
theorem c3_tertiary_windowing (wb : Workbook) (split : String)
    (st : DatasetState) (idx : ℤ) (ev subj : Cell) (col : ℕ) (raw : T3)
    (hinit : fNIRSDatasetInit wb split = .ok st)
    (hmeta : pyIndex st.samples_meta idx = .ok (ev, subj, col))
    (hraw : readAll wb st.hb_sheets
      (if st.drop_first then col + 1 else col) = .ok raw)
    (hlen : eventMinLen ev ≤ timeLen raw) :
    ∃ out, getitem wb st idx = .ok (out, labelOf st.event_map ev) ∧
      ∀ k c t, t < 4549 → at3 out k c t = tertiaryTarget ev raw k c t := by
  obtain ⟨_, _, _, _, _, _, _, _, _, _, _, _, _, hmap, htl, hoF, hoH⟩ :=
    init_ok_inv wb split st hinit
  have hkey : tertiaryKeys st.event_map = true := by
    rw [hmap]
    rfl
  obtain ⟨os, rs, _, _, hrect⟩ := readAll_ok wb st.hb_sheets _ raw hraw
  obtain ⟨out, hw, hpt⟩ :=
    window_tertiary st ev raw st.hb_sheets.length (timeLen raw) hkey htl hoF
      hoH hrect hlen
  refine ⟨out, ?_, hpt⟩
  unfold getitem
  rw [hmeta]
  dsimp only
  rw [hraw]
  dsimp only
  rw [hw]

/-- C3 witness: the tertiary windowing property instantiated on the S sample
of `wbC3`. -/
theorem c3_tertiary_windowing_witness :
    fNIRSDatasetInit wbC3 "all" = .ok stC3 ∧
    pyIndex stC3.samples_meta 0 = .ok (Cell.str "S", Cell.str "A", 0) ∧
    readAll wbC3 stC3.hb_sheets
      (if stC3.drop_first then 0 + 1 else 0) = .ok rawC3 ∧
    eventMinLen (Cell.str "S") ≤ timeLen rawC3 ∧
    ∃ out, getitem wbC3 stC3 0 =
        .ok (out, labelOf stC3.event_map (Cell.str "S")) ∧
      ∀ k c t, t < 4549 →
        at3 out k c t = tertiaryTarget (Cell.str "S") rawC3 k c t :=
  ⟨by decide, by decide, by rfl, by decide,
    c3_tertiary_windowing wbC3 "all" stC3 0 (Cell.str "S") (Cell.str "A") 0
      rawC3 (by decide) (by decide) (by rfl) (by decide)⟩

/-- C4: with the binary-regime fields of lines 104-107 in the dataset state
(label map {F:0, H:1}, target length 4801, offset H = 2000), the
materialized buffer relates pointwise to the raw series: event H averages
the windows at offsets 0 and 2000, and event F copies the first 4801 points
verbatim. -/
theorem c4_binary_windowing (wb : Workbook) (st : DatasetState) (idx : ℤ)
    (ev subj : Cell) (col : ℕ) (raw : T3)
    (hreg : st.event_map = [("F", 0), ("H", 1)])
    (htl : st.target_length = 4801)
    (hoH : st.offset_H = 2000)
    (hmeta : pyIndex st.samples_meta idx = .ok (ev, subj, col))
    (hraw : readAll wb st.hb_sheets
      (if st.drop_first then col + 1 else col) = .ok raw)
    (hlen : eventMinLenB ev ≤ timeLen raw) :
    ∃ out, getitem wb st idx = .ok (out, labelOf st.event_map ev) ∧
      ∀ k c t, t < 4801 → at3 out k c t = binaryTarget ev raw k c t := by
  have hkey : tertiaryKeys st.event_map = false := by
    rw [hreg]
    rfl
  obtain ⟨os, rs, _, _, hrect⟩ := readAll_ok wb st.hb_sheets _ raw hraw
  obtain ⟨out, hw, hpt⟩ :=
    window_binary st ev raw st.hb_sheets.length (timeLen raw) hkey htl hoH
      hrect hlen
  refine ⟨out, ?_, hpt⟩
  unfold getitem
  rw [hmeta]
  dsimp only
  rw [hraw]
  dsimp only
  rw [hw]

/-- C4 witness: the binary windowing property instantiated on the F sample
of `wbC4` against the binary-regime state `stC4`. -/
theorem c4_binary_windowing_witness :
    stC4.event_map = [("F", 0), ("H", 1)] ∧
    stC4.target_length = 4801 ∧
    stC4.offset_H = 2000 ∧
    pyIndex stC4.samples_meta 0 = .ok (Cell.str "F", Cell.str "A", 0) ∧
    readAll wbC4 stC4.hb_sheets
      (if stC4.drop_first then 0 + 1 else 0) = .ok rawC4 ∧
    eventMinLenB (Cell.str "F") ≤ timeLen rawC4 ∧
    ∃ out, getitem wbC4 stC4 0 =
        .ok (out, labelOf stC4.event_map (Cell.str "F")) ∧
      ∀ k c t, t < 4801 →
        at3 out k c t = binaryTarget (Cell.str "F") rawC4 k c t :=
  ⟨by decide, by decide, by decide, by decide, by rfl, by decide,
    c4_binary_windowing wbC4 stC4 0 (Cell.str "F") (Cell.str "A") 0 rawC4
      (by decide) (by decide) (by decide) (by decide) (by rfl) (by decide)⟩

/-- C5 counterexample: the claim says every accessed sample has shape
(2, channel_count, target_length); on `wbC5x`, whose sheets hold only three
data rows, the returned buffer has shape (2, 1, 3) although channel_count
is 1 and target_length is 4549. -/
theorem c5_counterexample :
    (getitemFull wbC5x "all" 0).map (fun p => hasShape3 p.1 2 1 4549) =
      .ok false ∧
    (getitemFull wbC5x "all" 0).map (fun p => hasShape3 p.1 2 1 3) =
      .ok true ∧
    (fNIRSDatasetInit wbC5x "all").map
        (fun st => (st.num_channels, st.target_length)) = .ok (1, 4549) := by
  refine ⟨by decide, by decide, by decide⟩

/-- C5 amended: the shape contract (2, channel_count, target_length) holds
for every accessed sample whose raw series are long enough for the event's
window rule (4549 points for S and for unmapped events, 4801 for F, 6801
for H). -/
theorem c5_shape_amended (wb : Workbook) (split : String) (st : DatasetState)
    (idx : ℤ) (ev subj : Cell) (col : ℕ) (raw : T3)
    (hinit : fNIRSDatasetInit wb split = .ok st)
    (hmeta : pyIndex st.samples_meta idx = .ok (ev, subj, col))
    (hraw : readAll wb st.hb_sheets
      (if st.drop_first then col + 1 else col) = .ok raw)
    (hlen : eventReqLen ev ≤ timeLen raw) :
    ∃ out lbl, getitem wb st idx = .ok (out, lbl) ∧
      hasShape3 out 2 st.num_channels st.target_length = true := by
  obtain ⟨_, _, _, _, _, _, _, _, _, hnum, hhb, _, _, hmap, htl, hoF, hoH⟩ :=
    init_ok_inv wb split st hinit
  have hkey : tertiaryKeys st.event_map = true := by
    rw [hmap]
    rfl
  obtain ⟨os, rs, _, _, hrect⟩ := readAll_ok wb st.hb_sheets _ raw hraw
  obtain ⟨out, hw, hsig⟩ :=
    window_shape st ev raw st.hb_sheets.length (timeLen raw) hkey htl hoF hoH
      hrect hlen
  refine ⟨out, labelOf st.event_map ev, ?_, ?_⟩
  · unfold getitem
    rw [hmeta]
    dsimp only
    rw [hraw]
    dsimp only
    rw [hw]
  · have hlen2 : st.hb_sheets.length = st.num_channels := by
      rw [hhb, hnum]
      unfold hbSheetsOf
      rw [List.length_map]
    rw [htl]
    refine hasShape3_of_sig out 2 st.num_channels 4549 ?_
    rw [hsig, hlen2]

/-- The data rows of each `wbC5` sheet read as 4549 scaled zeros. -/
theorem c5_series (nm : String) :
    readSeries ⟨nm, [Cell.str "S"] :: [Cell.str "A"] ::
      List.replicate 4549 [Cell.num 0]⟩ 0 =
      .ok (List.replicate 4549 ((0 : ℚ) * 1000000)) :=
  mapExcept_replicate (fun row => cellToNum (row.getD 0 (Cell.num 0)))
    [Cell.num 0] ((0 : ℚ) * 1000000) rfl 4549

/-- Reading and stacking `wbC5` yields `rawC5`. -/
theorem c5_readAll : readAll wbC5 stC5.hb_sheets 0 = .ok rawC5 := by
  have h3 := c5_series "HbO 1,1"
  have h4 := c5_series "HbR 1,1"
  have hrp : readPairs wbC5 [("HbO 1,1", "HbR 1,1")] 0 =
      .ok ([List.replicate 4549 ((0 : ℚ) * 1000000)],
        [List.replicate 4549 ((0 : ℚ) * 1000000)]) := by
    unfold readPairs
    rw [show findSheet wbC5 "HbO 1,1" = .ok ⟨"HbO 1,1", [Cell.str "S"] ::
      [Cell.str "A"] :: List.replicate 4549 [Cell.num 0]⟩ from rfl]
    dsimp only
    rw [h3]
    dsimp only
    rw [show findSheet wbC5 "HbR 1,1" = .ok ⟨"HbR 1,1", [Cell.str "S"] ::
      [Cell.str "A"] :: List.replicate 4549 [Cell.num 0]⟩ from rfl]
    dsimp only
    rw [h4]
    dsimp only
    rw [show readPairs wbC5 ([] : List (String × String)) 0 = .ok ([], [])
      from rfl]
  show readAll wbC5 [("HbO 1,1", "HbR 1,1")] 0 = .ok rawC5
  unfold readAll
  rw [hrp]
  dsimp only
  rw [show npStack1 [List.replicate 4549 ((0 : ℚ) * 1000000)] =
    .ok [List.replicate 4549 ((0 : ℚ) * 1000000)] from rfl]
  dsimp only
  rw [if_pos rfl]
  rfl

/-- Constructing from `wbC5` yields `stC5`. -/
theorem c5_init : fNIRSDatasetInit wbC5 "all" = .ok stC5 := by
  unfold fNIRSDatasetInit
  rw [if_neg (by decide)]
  rw [show findSheet wbC5 ((hbSheetsOf wbC5).headD ("", "")).1 =
    .ok ⟨"HbO 1,1", [Cell.str "S"] :: [Cell.str "A"] ::
      List.replicate 4549 [Cell.num 0]⟩ from rfl]
  unfold initFromRows
  dsimp only
  rw [show headerPart ([Cell.str "S"] :: [Cell.str "A"] ::
    List.replicate 4549 [Cell.num 0]) =
    .ok ([(Cell.str "S", Cell.str "A")], false) from rfl]
  dsimp only
  rw [show sortedSet ([(Cell.str "S", Cell.str "A")].map Prod.snd) =
    .ok [Cell.str "A"] from by decide]
  dsimp only
  rw [show splitSelect "all" [Cell.str "A"] = .ok [Cell.str "A"] from by decide]
  dsimp only
  rw [show ([Cell.str "S"] :: [Cell.str "A"] ::
    List.replicate 4549 [Cell.num 0] : List (List Cell)).length - 2 = 4549 from
    by rw [List.length_cons, List.length_cons, List.length_replicate]]
  decide

/-- The raw time length of `rawC5` meets the S requirement. -/
theorem c5_minlen : eventReqLen (Cell.str "S") ≤ timeLen rawC5 := by
  have h1 : timeLen rawC5 = 4549 := by
    show (List.replicate 4549 ((0 : ℚ) * 1000000)).length = 4549
    rw [List.length_replicate]
  rw [h1]
  decide

/-- C5 witness: the amended shape contract instantiated on the 4549-row S
sample of `wbC5`. -/
theorem c5_shape_amended_witness :
    fNIRSDatasetInit wbC5 "all" = .ok stC5 ∧
    pyIndex stC5.samples_meta 0 = .ok (Cell.str "S", Cell.str "A", 0) ∧
    readAll wbC5 stC5.hb_sheets
      (if stC5.drop_first then 0 + 1 else 0) = .ok rawC5 ∧
    eventReqLen (Cell.str "S") ≤ timeLen rawC5 ∧
    ∃ out lbl, getitem wbC5 stC5 0 = .ok (out, lbl) ∧
      hasShape3 out 2 stC5.num_channels stC5.target_length = true :=
  ⟨c5_init, by decide, c5_readAll, c5_minlen,
    c5_shape_amended wbC5 "all" stC5 0 (Cell.str "S") (Cell.str "A") 0 rawC5
      c5_init (by decide) c5_readAll c5_minlen⟩

/-- C10: the channel list of every workbook is sorted by the lexicographic
string order of the matched channel-id texts; on `wbC10` this stacks channel
"10,1" before "2,2" although the integer pair (2,2) precedes (10,1); the
stored sheet pairs follow the channel list, and the materialized buffer has,
at channel index c of either measurement kind, exactly the series read from
the sheets of channel c. -/
theorem c10_channel_order :
    (∀ wb, (channelsOf wb).Pairwise fun a b => strLeB a b = true) ∧
    channelsOf wbC10 = ["10,1", "2,2"] ∧
    (∀ wb split st, fNIRSDatasetInit wb split = .ok st →
      st.channels = channelsOf wb ∧
      st.hb_sheets = st.channels.map fun cid =>
        ((hbName wb true cid).getD "", (hbName wb false cid).getD "")) ∧
    (∀ wb pairs j raw, readAll wb pairs j = .ok raw →
      ∀ c, c < pairs.length →
        ∃ nmO nmR shO shR,
          pairs[c]? = some (nmO, nmR) ∧
          findSheet wb nmO = .ok shO ∧
          readSeries shO j = .ok ((raw.getD 0 []).getD c []) ∧
          findSheet wb nmR = .ok shR ∧
          readSeries shR j = .ok ((raw.getD 1 []).getD c [])) := by
  refine ⟨?_, by decide, ?_, ?_⟩
  · intro wb
    unfold channelsOf
    exact pySort_pairwise strLeB strLeB_total strLeB_trans _
  · intro wb split st h
    obtain ⟨_, _, _, _, _, _, _, _, hch, _, hhb, _, _, _, _, _, _⟩ :=
      init_ok_inv wb split st h
    refine ⟨hch, ?_⟩
    rw [hhb, hch]
    rfl
  · intro wb pairs j raw h c hc
    obtain ⟨os, rs, hrp, hraweq, _⟩ := readAll_ok wb pairs j raw h
    obtain ⟨_, _, hpt⟩ := readPairs_ok wb pairs j os rs hrp
    obtain ⟨nmO, nmR, shO, shR, vO, vR, hp1, hp2, hp3, hp4, hp5, hp6, hp7⟩ :=
      hpt c hc
    subst hraweq
    refine ⟨nmO, nmR, shO, shR, hp1, hp2, ?_, hp5, ?_⟩
    · have h0 : (([os, rs] : T3).getD 0 []) = os := rfl
      rw [h0]
      have hv : os.getD c [] = vO := by
        rw [List.getD_eq_getElem?_getD, hp4]
        rfl
      rw [hv]
      exact hp3
    · have h1 : (([os, rs] : T3).getD 1 []) = rs := rfl
      rw [h1]
      have hv : rs.getD c [] = vR := by
        rw [List.getD_eq_getElem?_getD, hp7]
        rfl
      rw [hv]
      exact hp6

/-- C10 witness: the ordering and axis properties instantiated on `wbC10`. -/
theorem c10_channel_order_witness :
    (channelsOf wbC10).Pairwise (fun a b => strLeB a b = true) ∧
    (fNIRSDatasetInit wbC10 "all" = .ok stC10 ∧
      stC10.channels = channelsOf wbC10 ∧
      stC10.hb_sheets = stC10.channels.map fun cid =>
        ((hbName wbC10 true cid).getD "", (hbName wbC10 false cid).getD "")) ∧
    (readAll wbC10 stC10.hb_sheets 0 = .ok rawC10 ∧
      0 < stC10.hb_sheets.length ∧
      ∃ nmO nmR shO shR,
        stC10.hb_sheets[0]? = some (nmO, nmR) ∧
        findSheet wbC10 nmO = .ok shO ∧
        readSeries shO 0 = .ok ((rawC10.getD 0 []).getD 0 []) ∧
        findSheet wbC10 nmR = .ok shR ∧
        readSeries shR 0 = .ok ((rawC10.getD 1 []).getD 0 [])) :=
  ⟨c10_channel_order.1 wbC10,
    ⟨by decide,
      (c10_channel_order.2.2.1 wbC10 "all" stC10 (by decide)).1,
      (c10_channel_order.2.2.1 wbC10 "all" stC10 (by decide)).2⟩,
    ⟨by rfl, by decide,
      c10_channel_order.2.2.2 wbC10 stC10.hb_sheets 0 rawC10 (by rfl) 0
        (by decide)⟩⟩
